import Mathlib

/-!
# Verification of the `pdf-pages-count` page-count engine

This file is a shallow embedding, in Lean 4, of the core of the
`pdf-pages-count` Node.js library (file `index.js`): a PDF page-count
extractor built from byte-level parsing primitives, a classic-xref and an
xref-stream cross-reference resolver, a recursive page-tree traversal and a
waterfall of heuristic scanners, sequenced by the orchestrator
`countPdfPagesSync`.

Modelling conventions used throughout:

* A byte buffer is a `List Char`; the source reinterprets bytes as latin-1
  text (one byte, one character, bijectively), so byte positions and string
  indices coincide and a single representation is faithful for both.
* JavaScript exceptions are modelled with `Except`; a thrown parse error
  carries no payload that the program inspects, so `Except Unit` is used
  for internal failures and `Except String` only where the error message is
  observable (the orchestrator's single public parse error).
* `zlib.inflateSync` is an external library call; it is modelled as an
  oracle parameter `inflate : List Nat → Option (List Nat)` (`none` models
  a thrown inflate error).
* The fixed regular expressions of the source (`/\/Type\s*\/Pages\b/`,
  `/\s*Key\s+(\d+)`, `^(\d{10})\s+(\d{5})\s+([nf])`, ...) are implemented
  as direct character-list matchers with JavaScript semantics (leftmost
  match, greedy quantifiers; greediness is benign in all these patterns
  because each quantified class is disjoint from the literal that follows).
* JavaScript `Map` objects are modelled as function maps `keyType → Option value`;
  `Map.set` overwrites, so an update writes the new binding pointwise.
-/

namespace PdfPages

/-! ## The orchestrator (`countPdfPagesSync`, source lines 797-833)

The orchestrator runs seven strategies in a fixed order.  Each accurate
strategy (1-4) executes inside `try { ... } catch (_) {}` and can throw; the
three scanners (5-7) are total.  For the orchestrator's control flow only
the outcome of each strategy computation on the given buffer matters, so
the embedding abstracts the seven computations as a record of outcomes
(each modelled at its own level elsewhere in this file). -/

/-- Outcomes, on one fixed input buffer, of the seven strategy computations
invoked by `countPdfPagesSync`, in source order:
`countPagesViaXrefStreamTraversal`, `countPagesViaClassicTraversal`,
`parsePageCountViaClassicXref`, `parsePageCountViaXrefStream`,
`scanMaxPagesCount`, `scanMaxPagesCountFromObjectStreams`,
`countPagesByPageObjects`.  The first four may throw (`Except`); the last
three are total and never throw (their internal inflate errors are caught
locally).  All produced values are mathematical integers: every value the
source returns here is built from `parseInt` results and integer sums. -/
structure StrategyOutcomes where
  xrefStreamTraversal : Except Unit Int
  classicTraversal : Except Unit Int
  classicXrefCount : Except Unit Int
  xrefStreamCount : Except Unit Int
  scanMax : Int
  scanMaxObjStm : Int
  pageObjects : Int

/-- JavaScript `approx > n ? approx : n` (the heuristic guard of
strategies 3 and 4). -/
def jsGuardMax (approx n : Int) : Int := if approx > n then approx else n

/-- Steps 5-7 of `countPdfPagesSync` (source lines 825-832): the three
fallback scans and the final throw. -/
def countStep5 (S : StrategyOutcomes) : Except String Int :=
  if 0 < S.scanMax then .ok S.scanMax
  else if 0 < S.scanMaxObjStm then .ok S.scanMaxObjStm
  else if 0 < S.pageObjects then .ok S.pageObjects
  else .error "PDF page count not found"

/-- Step 4 of `countPdfPagesSync` (source lines 817-824): `/Count` via the
xref stream, guarded by the page-object heuristic. -/
def countStep4 (S : StrategyOutcomes) : Except String Int :=
  match S.xrefStreamCount with
  | .ok n => if 0 < n then .ok (jsGuardMax S.pageObjects n) else countStep5 S
  | .error _ => countStep5 S

/-- Step 3 of `countPdfPagesSync` (source lines 809-816): `/Count` via the
classic xref table, guarded by the page-object heuristic. -/
def countStep3 (S : StrategyOutcomes) : Except String Int :=
  match S.classicXrefCount with
  | .ok n => if 0 < n then .ok (jsGuardMax S.pageObjects n) else countStep4 S
  | .error _ => countStep4 S

/-- Step 2 of `countPdfPagesSync` (source lines 804-808): accurate page-tree
traversal via the classic xref table. -/
def countStep2 (S : StrategyOutcomes) : Except String Int :=
  match S.classicTraversal with
  | .ok n => if 0 < n then .ok n else countStep3 S
  | .error _ => countStep3 S

/-- `countPdfPagesSync` (source lines 797-833), with the seven strategy
computations abstracted as their outcomes `S`.  Each `try { ... } catch`
block is a `match` on the strategy's `Except` outcome; `Number.isInteger(n)`
is identically true for the integer outcomes (see `StrategyOutcomes`), so
only the `n > 0` guard remains. -/
def countPdfPagesSync (S : StrategyOutcomes) : Except String Int :=
  match S.xrefStreamTraversal with
  | .ok n => if 0 < n then .ok n else countStep2 S
  | .error _ => countStep2 S

/-- The "positive integer yield" of a fallible strategy outcome: `some n`
when the strategy returned `n > 0`, `none` when it threw or returned a
non-positive value. -/
def strategyYield (e : Except Unit Int) : Option Int :=
  match e with
  | .ok n => if 0 < n then some n else none
  | .error _ => none

/-- The positive yield of a total scanner result. -/
def posYield (n : Int) : Option Int := if 0 < n then some n else none

/-- The yields of the seven strategies in the orchestrator's order, with the
heuristic guard of strategies 3 and 4 applied to their values. -/
def strategyYields (S : StrategyOutcomes) : List (Option Int) :=
  [strategyYield S.xrefStreamTraversal,
   strategyYield S.classicTraversal,
   (strategyYield S.classicXrefCount).map (jsGuardMax S.pageObjects),
   (strategyYield S.xrefStreamCount).map (jsGuardMax S.pageObjects),
   posYield S.scanMax,
   posYield S.scanMaxObjStm,
   posYield S.pageObjects]

/-- The first yield of an ordered strategy list, if any. -/
def firstYield (l : List (Option Int)) : Option Int := (l.filterMap id).head?

/-- The orchestrator result determined by an ordered list of strategy
yields: the first yield if there is one, the single parse error otherwise. -/
def yieldsResult (l : List (Option Int)) : Except String Int :=
  match firstYield l with
  | some n => .ok n
  | none => .error "PDF page count not found"

/-! ## Latin-1 character classes and JavaScript string primitives

The source operates on `buffer.toString("latin1")` views, a bijective
byte-to-character mapping, so a single `List Char` represents both bytes and
text.  The character classes below are the JavaScript regex classes
restricted to latin-1 code points (the only code points such a view can
contain). -/

/-- PDF whitespace as used by `skipWhitespace` (source lines 1012-1029):
`{0x00, 0x09, 0x0A, 0x0C, 0x0D, 0x20}`. -/
def isPdfWs (c : Char) : Bool :=
  c.toNat = 0 || c.toNat = 9 || c.toNat = 10 || c.toNat = 12 ||
  c.toNat = 13 || c.toNat = 32

/-- JavaScript regex `\s` on latin-1 code points: TAB, LF, VT, FF, CR,
space, NBSP. -/
def isJsWs (c : Char) : Bool :=
  c.toNat = 9 || c.toNat = 10 || c.toNat = 11 || c.toNat = 12 ||
  c.toNat = 13 || c.toNat = 32 || c.toNat = 160

/-- JavaScript regex `\d`. -/
def isDigitCh (c : Char) : Bool := 48 ≤ c.toNat && c.toNat ≤ 57

/-- JavaScript regex word character, for `\b` boundaries. -/
def isWordCh (c : Char) : Bool :=
  isDigitCh c || (65 ≤ c.toNat && c.toNat ≤ 90) ||
  (97 ≤ c.toNat && c.toNat ≤ 122) || c.toNat = 95

/-- Value of a digit run; `parseInt` applied to a `(\d+)` regex capture. -/
def digitsToNat (l : List Char) : Nat :=
  l.foldl (fun a c => a * 10 + (c.toNat - 48)) 0

/-- JavaScript `parseInt(tok, 10)`: skip leading whitespace, an optional
sign, then a leading digit run; `none` models `NaN`. -/
def jsParseInt (t : List Char) : Option Int :=
  match t.dropWhile isJsWs with
  | '-' :: r =>
    let d := r.takeWhile isDigitCh
    if d.isEmpty then none else some (-(digitsToNat d : Int))
  | '+' :: r =>
    let d := r.takeWhile isDigitCh
    if d.isEmpty then none else some ((digitsToNat d : Int))
  | r =>
    let d := r.takeWhile isDigitCh
    if d.isEmpty then none else some ((digitsToNat d : Int))

/-- JavaScript `String.prototype.trim`. -/
def jsTrim (l : List Char) : List Char :=
  ((l.dropWhile isJsWs).reverse.dropWhile isJsWs).reverse

/-- The non-whitespace runs of a character list, in order.  The fuel is
structural bookkeeping only; each step consumes at least one character, so
`fuel = l.length` is always enough. -/
def wsTokensGo : Nat → List Char → List (List Char)
  | 0, _ => []
  | _, [] => []
  | f + 1, c :: rest =>
    if isJsWs c then wsTokensGo f rest
    else
      (c :: rest.takeWhile (fun x => !isJsWs x)) ::
        wsTokensGo f (rest.drop (rest.takeWhile (fun x => !isJsWs x)).length)

/-- JavaScript `s.split(/\s+/)`: one empty token on empty input, the
non-whitespace runs otherwise (the source always splits trimmed text). -/
def jsSplitWs (l : List Char) : List (List Char) :=
  if l.isEmpty then [[]] else wsTokensGo l.length l

/-- `String.prototype.indexOf(pat, i)` for a non-empty pattern, scanning the
suffix; `i` is the absolute position of the current suffix. -/
def indexOfAux (pat : List Char) : List Char → Nat → Option Nat
  | [], _ => none
  | l@(_ :: rest), i =>
    if pat.isPrefixOf l then some i else indexOfAux pat rest (i + 1)

/-- `s.indexOf(pat, start)` (absolute index) for a non-empty pattern. -/
def indexOfFrom (s pat : List Char) (start : Nat) : Option Nat :=
  indexOfAux pat (s.drop start) start

/-- `s.lastIndexOf(pat, upTo)`: the largest start index `i ≤ upTo` at which
`pat` occurs. -/
def lastIndexOfUpTo (s pat : List Char) (upTo : Nat) : Option Nat :=
  (List.range (upTo + 1)).foldl
    (fun acc i => if pat.isPrefixOf (s.drop i) then some i else acc) none

/-- JavaScript `/lit/.test(s)` for a plain literal pattern such as
`/FlateDecode/`. -/
def hasSubstr (s pat : List Char) : Bool := (indexOfFrom s pat 0).isSome

/-! ## The source's fixed regular expressions as anchored matchers

Each matcher tries a pattern at the start of a suffix and returns the
consumed length with the captured value.  `findPat` gives
`String.prototype.match` (leftmost match) semantics, `findAllPat` the
`exec`-loop (`/g`) semantics where each search resumes at the end of the
previous match.  Greedy quantifier semantics coincide with the maximal-run
implementations below because in every source pattern the quantified class
is disjoint from the literal that follows it. -/

/-- Leftmost-match search of an anchored matcher, returning its value. -/
def findPat (pat : List Char → Option (Nat × α)) : List Char → Option α
  | [] => (pat []).map Prod.snd
  | l@(_ :: rest) =>
    match pat l with
    | some (_, v) => some v
    | none => findPat pat rest

/-- Leftmost-match search returning the absolute match position and value;
`base` is the absolute position of the current suffix. -/
def findPatPos (pat : List Char → Option (Nat × α)) :
    List Char → Nat → Option (Nat × Nat × α)
  | [], _ => none
  | l@(_ :: rest), base =>
    match pat l with
    | some (n, v) => some (base, base + n, v)
    | none => findPatPos pat rest (base + 1)

/-- All `exec`-loop matches `(start, end, value)` in order; every matcher
used with this consumes at least one character, and a (never occurring)
empty match is treated as no match.  The fuel is structural bookkeeping
only; each step consumes at least one character, so `fuel = l.length` is
always enough. -/
def findAllPatGo (pat : List Char → Option (Nat × α)) :
    Nat → List Char → Nat → List (Nat × Nat × α)
  | 0, _, _ => []
  | _, [], _ => []
  | f + 1, c :: rest, base =>
    match pat (c :: rest) with
    | some (n + 1, v) =>
      (base, base + n + 1, v) :: findAllPatGo pat f (rest.drop n) (base + n + 1)
    | _ => findAllPatGo pat f rest (base + 1)

/-- All `exec`-loop matches of an anchored matcher over `s`, with `base`
the absolute position of `s`'s head. -/
def findAllPat (pat : List Char → Option (Nat × α))
    (s : List Char) (base : Nat) : List (Nat × Nat × α) :=
  findAllPatGo pat s.length s base

/-- Anchored matcher for `/\/Type\s*\/NAME\b/` (the `/Type /Page`,
`/Type /Pages`, `/Type /XRef`, `/Type /ObjStm` tests of the source). -/
def matchTypeNameAt (name : List Char) (s : List Char) : Option (Nat × Unit) :=
  if ("/Type".toList).isPrefixOf s then
    let s1 := s.drop 5
    let w := (s1.takeWhile isJsWs).length
    let s2 := s1.drop w
    if ('/' :: name).isPrefixOf s2 then
      match s2.drop (name.length + 1) with
      | [] => some (5 + w + name.length + 1, ())
      | c :: _ =>
        if isWordCh c then none else some (5 + w + name.length + 1, ())
    else none
  else none

/-- `/\/Type\s*\/Page\b/.test(dict)` (the `\b` rejects `/Pages`). -/
def testTypePage (s : List Char) : Bool :=
  (findPat (matchTypeNameAt "Page".toList) s).isSome

/-- `/\/Type\s*\/Pages\b/.test(dict)`. -/
def testTypePages (s : List Char) : Bool :=
  (findPat (matchTypeNameAt "Pages".toList) s).isSome

/-- `/\/Type\s*\/XRef\b/.test(dict)`. -/
def testTypeXRef (s : List Char) : Bool :=
  (findPat (matchTypeNameAt "XRef".toList) s).isSome

/-- `/\/Type\s*\/ObjStm\b/.test(dict)`. -/
def testTypeObjStm (s : List Char) : Bool :=
  (findPat (matchTypeNameAt "ObjStm".toList) s).isSome

/-- Anchored matcher for `parseIntFromDict`'s pattern `/\s*KEY\s+(\d+)`
(source lines 1129-1133). -/
def matchKeyIntAt (key : List Char) (s : List Char) : Option (Nat × Nat) :=
  match s with
  | '/' :: s1 =>
    let w := (s1.takeWhile isJsWs).length
    let s2 := s1.drop w
    if key.isPrefixOf s2 then
      let s3 := s2.drop key.length
      let w2 := (s3.takeWhile isJsWs).length
      if w2 = 0 then none
      else
        let d := (s3.drop w2).takeWhile isDigitCh
        if d.isEmpty then none
        else some (1 + w + key.length + w2 + d.length, digitsToNat d)
    else none
  | _ => none

/-- `parseIntFromDict(dictString, key)` (source lines 1129-1133); `none`
models the `null` returned on no match. -/
def parseIntFromDict (dict : List Char) (key : List Char) : Option Nat :=
  findPat (matchKeyIntAt key) dict

/-- An `{obj, gen}` indirect reference. -/
structure ObjRef where
  obj : Nat
  gen : Nat
deriving DecidableEq

/-- Anchored matcher for the global kid pattern `(\d+)\s+(\d+)\s+R`
(source lines 1512, 1522). -/
def matchRefPairAt (s : List Char) : Option (Nat × ObjRef) :=
  let d1 := s.takeWhile isDigitCh
  if d1.isEmpty then none else
  let s1 := s.drop d1.length
  let w1 := (s1.takeWhile isJsWs).length
  if w1 = 0 then none else
  let s2 := s1.drop w1
  let d2 := s2.takeWhile isDigitCh
  if d2.isEmpty then none else
  let s3 := s2.drop d2.length
  let w2 := (s3.takeWhile isJsWs).length
  if w2 = 0 then none else
  match s3.drop w2 with
  | 'R' :: _ =>
    some (d1.length + w1 + d2.length + w2 + 1,
      ⟨digitsToNat d1, digitsToNat d2⟩)
  | _ => none

/-- Anchored matcher for `parseIndirectRefFromDict`'s pattern
`/\s*KEY\s+(\d+)\s+(\d+)\s+R` (source lines 1122-1127). -/
def matchKeyRefAt (key : List Char) (s : List Char) : Option (Nat × ObjRef) :=
  match s with
  | '/' :: s1 =>
    let w := (s1.takeWhile isJsWs).length
    let s2 := s1.drop w
    if key.isPrefixOf s2 then
      let s3 := s2.drop key.length
      let w2 := (s3.takeWhile isJsWs).length
      if w2 = 0 then none
      else
        match matchRefPairAt (s3.drop w2) with
        | some (n, v) => some (1 + w + key.length + w2 + n, v)
        | none => none
    else none
  | _ => none

/-- `parseIndirectRefFromDict(dictString, key)` (source lines 1122-1127). -/
def parseIndirectRefFromDict (dict : List Char) (key : List Char) :
    Option ObjRef :=
  findPat (matchKeyRefAt key) dict

/-- Anchored matcher for `/\/Kids\s*\[(.*?)\]/s` (source line 1509); the
lazy capture runs to the first closing bracket, which must exist. -/
def matchKidsAt (s : List Char) : Option (Nat × List Char) :=
  if ("/Kids".toList).isPrefixOf s then
    let s1 := s.drop 5
    let w := (s1.takeWhile isJsWs).length
    match s1.drop w with
    | '[' :: s3 =>
      let content := s3.takeWhile (fun c => c != ']')
      match s3.drop content.length with
      | ']' :: _ => some (5 + w + 1 + content.length + 1, content)
      | _ => none
    | _ => none
  else none

/-- `parseKidsArray(dictString)` (source lines 1508-1518): all `N G R`
pairs inside the first `/Kids [...]` group. -/
def parseKidsArray (dict : List Char) : List ObjRef :=
  match findPat matchKidsAt dict with
  | some content => (findAllPat matchRefPairAt content 0).map (fun t => t.2.2)
  | none => []

/-- `parseKidsArrayFromArrayString(arrayString)` (source lines 1520-1529);
an empty string is falsy in the source and yields `[]`, as here. -/
def parseKidsArrayFromArrayString (arr : List Char) : List ObjRef :=
  (findAllPat matchRefPairAt arr 0).map (fun t => t.2.2)

/-! ## The recursive page-tree traversal (`traversePagesNodeMap`)

`traversePagesNodeMap` (source lines 1383-1429) walks `/Kids` references
through the classic-xref `objectOffsets` map, reading each object's
dictionary from the buffer with `readIndirectObject`.  The byte-level
readers are abstracted as environment functions of the byte offset; the
unbounded JavaScript recursion is indexed by explicit fuel, `none` meaning
the recursion is still running at that depth. -/

deriving instance DecidableEq for Except

/-- A classic-xref direct entry `{offset, gen}`. -/
structure XEntry where
  offset : Nat
  gen : Nat
deriving DecidableEq

/-- Environment of the classic-xref traversal: the `objectOffsets` map and
the byte-level readers `readIndirectObject` (dictionary string at an
offset) and `readAnyObjectContent` (raw content at an offset, used for
indirect `/Kids` arrays), both of which may throw. -/
structure MapEnv where
  objOffsets : Nat → Option XEntry
  readObjDictAt : Nat → Except Unit (List Char)
  readContentAt : Nat → Except Unit (List Char)

/-- `Number.isInteger(cnt) && cnt > 0 ? cnt : 0` for the traversal's
`/Count` fallback (`cnt` is `null` when the key is absent). -/
def countOrZero (cnt : Option Nat) : Nat :=
  match cnt with
  | some c => if 0 < c then c else 0
  | none => 0

/-- Kid-list resolution of `traversePagesNodeMap` (source lines 1397-1409):
the inline `/Kids [...]` array if non-empty, otherwise the indirect `/Kids
N G R` array object via `getArrayContentViaOffsets` (source lines
1572-1577), which throws when that object is missing or unreadable. -/
def resolveKidsMap (env : MapEnv) (dict : List Char) :
    Except Unit (List ObjRef) :=
  let kids := parseKidsArray dict
  if kids.isEmpty then
    match parseIndirectRefFromDict dict "Kids".toList with
    | some kr =>
      match env.objOffsets kr.obj with
      | none => .error ()
      | some entry =>
        match env.readContentAt entry.offset with
        | .error e => .error e
        | .ok arrStr => .ok (parseKidsArrayFromArrayString arrStr)
    | none => .ok []
  else .ok kids

/-- The `for (const k of kids)` loop of `traversePagesNodeMap` (source
lines 1411-1427), parameterized by the recursive call `rec` at one level
less fuel: kids missing from the map are skipped (`continue`), `/Page`
kids add 1, `/Pages` kids recurse, other kids add nothing, and a failed
dictionary read aborts the whole traversal. -/
def kidsSumLoop (env : MapEnv) (rec : ObjRef → Option (Except Unit Nat)) :
    List ObjRef → Nat → Option (Except Unit Nat)
  | [], s => some (.ok s)
  | k :: rest, s =>
    match env.objOffsets k.obj with
    | none => kidsSumLoop env rec rest s
    | some ce =>
      match env.readObjDictAt ce.offset with
      | .error e => some (.error e)
      | .ok cdict =>
        if testTypePage cdict then kidsSumLoop env rec rest (s + 1)
        else if testTypePages cdict then
          match rec k with
          | none => none
          | some (.error e) => some (.error e)
          | some (.ok c) => kidsSumLoop env rec rest (s + c)
        else kidsSumLoop env rec rest s

/-- `traversePagesNodeMap` (source lines 1383-1429).  The final source line
`return sum || (Number.isInteger(cnt) && cnt > 0 ? cnt : 0)` becomes the
`if s = 0` fallback. -/
def traversePagesNodeMap : Nat → MapEnv → ObjRef → Option (Except Unit Nat)
  | 0, _, _ => none
  | fuel + 1, env, nodeRef =>
    match env.objOffsets nodeRef.obj with
    | none => some (.error ())
    | some entry =>
      match env.readObjDictAt entry.offset with
      | .error e => some (.error e)
      | .ok dict =>
        if testTypePage dict then some (.ok 1)
        else if !testTypePages dict then some (.ok 0)
        else
          let cnt := parseIntFromDict dict "Count".toList
          match resolveKidsMap env dict with
          | .error e => some (.error e)
          | .ok kids =>
            if kids.isEmpty then some (.ok (countOrZero cnt))
            else
              match kidsSumLoop env (traversePagesNodeMap fuel env) kids 0 with
              | none => none
              | some (.error e) => some (.error e)
              | some (.ok s) =>
                some (.ok (if s = 0 then countOrZero cnt else s))

/-- A recursion edge of `traversePagesNodeMap`: the traversal at node `r`
recurses into kid `k` exactly when node `r` resolves to a `/Type /Pages`
dictionary (and not `/Type /Page`), its kid list resolves and contains
`k`, and `k` itself resolves to a `/Type /Pages` dictionary (`/Page` kids
and unresolvable kids are handled without recursion). -/
def RecEdge (env : MapEnv) (r k : ObjRef) : Prop :=
  ∃ entry dict kids ce cdict,
    env.objOffsets r.obj = some entry ∧
    env.readObjDictAt entry.offset = .ok dict ∧
    testTypePage dict = false ∧
    testTypePages dict = true ∧
    resolveKidsMap env dict = .ok kids ∧
    k ∈ kids ∧
    env.objOffsets k.obj = some ce ∧
    env.readObjDictAt ce.offset = .ok cdict ∧
    testTypePage cdict = false ∧
    testTypePages cdict = true

/-- Dictionary of a `/Type /Pages` node with `/Count 7` and one kid. -/
def dictPagesCount7 : List Char :=
  "<</Type /Pages /Count 7 /Kids [2 0 R]>>".toList

/-- Dictionary of a `/Type /Pages` node with no kids and no `/Count`. -/
def dictPagesBare : List Char := "<</Type /Pages>>".toList

/-- Dictionary of a `/Type /Pages` node whose only kid is object 1. -/
def dictPagesCycle : List Char := "<</Type /Pages /Kids [1 0 R]>>".toList

/-- Dictionary of a `/Type /Page` leaf. -/
def dictPageLeaf : List Char := "<</Type /Page>>".toList

/-- Concrete traversal environment: object 1 is a `/Type /Pages` node with
`/Count 7` whose only kid, object 2, is a childless `/Type /Pages` node
with no `/Count` (so the recursive kid sum is 0). -/
def envCountFallback : MapEnv where
  objOffsets n := if n = 1 then some ⟨10, 0⟩ else
    if n = 2 then some ⟨20, 0⟩ else none
  readObjDictAt off := if off = 10 then .ok dictPagesCount7 else
    if off = 20 then .ok dictPagesBare else .error ()
  readContentAt _ := .error ()

/-- Concrete traversal environment with a cyclic kid graph: object 1 is a
`/Type /Pages` node whose only kid is object 1 itself. -/
def envKidCycle : MapEnv where
  objOffsets n := if n = 1 then some ⟨100, 0⟩ else none
  readObjDictAt off := if off = 100 then .ok dictPagesCycle else .error ()
  readContentAt _ := .error ()

/-- Concrete traversal environment whose single object is a `/Page` leaf. -/
def envPageLeaf : MapEnv where
  objOffsets n := if n = 1 then some ⟨10, 0⟩ else none
  readObjDictAt off := if off = 10 then .ok dictPageLeaf else .error ()
  readContentAt _ := .error ()

/-! ## Cross-reference stream decoding (`buildXrefMapFromXrefStream`)

Source lines 1739-1866: the `/Size`, `/W`, `/Index` and `/DecodeParms`
extractors, the PNG predictor reversal, the big-endian field reader and the
subsection decode loop.  Stream bytes are `List Nat`; buffer text converts
with `Char.toNat` (latin-1, bijective). -/

/-- A cross-reference stream object as returned by `readStreamObject`:
its dictionary text and raw stream bytes. -/
structure XrefStreamObj where
  dictString : List Char
  streamBuffer : List Nat

/-- Anchored matcher for a tight key pattern `\/KEY\s+(\d+)` with no
whitespace between the slash and the key (the `/Size`, `/Predictor`,
`/Columns` regexes of the source, lines 1758-1761 and 1806-1807). -/
def matchTightKeyIntAt (key : List Char) (s : List Char) :
    Option (Nat × Nat) :=
  if ('/' :: key).isPrefixOf s then
    let s1 := s.drop (key.length + 1)
    let w := (s1.takeWhile isJsWs).length
    if w = 0 then none
    else
      let d := (s1.drop w).takeWhile isDigitCh
      if d.isEmpty then none
      else some (key.length + 1 + w + d.length, digitsToNat d)
  else none

/-- `readSize(dictString)` (source lines 1758-1762): first match of
`/\/Size\s+(\d+)/`, throwing when absent. -/
def readSize (dict : List Char) : Except Unit Nat :=
  match findPat (matchTightKeyIntAt "Size".toList) dict with
  | some n => .ok n
  | none => .error ()

/-- Anchored matcher for `/\/W\s*\[\s*(\d+)\s+(\d+)\s+(\d+)\s*\]/`
(source line 1740). -/
def matchWAt (s : List Char) : Option (Nat × (Nat × Nat × Nat)) :=
  if ("/W".toList).isPrefixOf s then
    let s1 := s.drop 2
    let wa := (s1.takeWhile isJsWs).length
    match s1.drop wa with
    | '[' :: s2 =>
      let wb := (s2.takeWhile isJsWs).length
      let sa := s2.drop wb
      let d1 := sa.takeWhile isDigitCh
      if d1.isEmpty then none else
      let sb := sa.drop d1.length
      let wc := (sb.takeWhile isJsWs).length
      if wc = 0 then none else
      let sc := sb.drop wc
      let d2 := sc.takeWhile isDigitCh
      if d2.isEmpty then none else
      let sd := sc.drop d2.length
      let wd := (sd.takeWhile isJsWs).length
      if wd = 0 then none else
      let se := sd.drop wd
      let d3 := se.takeWhile isDigitCh
      if d3.isEmpty then none else
      let sf := se.drop d3.length
      let we := (sf.takeWhile isJsWs).length
      match sf.drop we with
      | ']' :: _ =>
        some (2 + wa + 1 + wb + d1.length + wc + d2.length + wd +
            d3.length + we + 1,
          (digitsToNat d1, digitsToNat d2, digitsToNat d3))
      | _ => none
    | _ => none
  else none

/-- `readWArray(dictString)` (source lines 1739-1743), throwing when the
`/W [w0 w1 w2]` array is absent. -/
def readWArray (dict : List Char) : Except Unit (Nat × Nat × Nat) :=
  match findPat matchWAt dict with
  | some t => .ok t
  | none => .error ()

/-- Anchored matcher for `/\/Index\s*\[(.*?)\]/` (source line 1746). -/
def matchIndexAt (s : List Char) : Option (Nat × List Char) :=
  if ("/Index".toList).isPrefixOf s then
    let s1 := s.drop 6
    let w := (s1.takeWhile isJsWs).length
    match s1.drop w with
    | '[' :: s3 =>
      let content := s3.takeWhile (fun c => c != ']')
      match s3.drop content.length with
      | ']' :: _ => some (6 + w + 1 + content.length + 1, content)
      | _ => none
    | _ => none
  else none

/-- The pairing loop of `readIndexArray`
(`for (i = 0; i + 1 < nums.length; i += 2) out.push(nums[i], nums[i+1])`,
source line 1754): keeps complete pairs, dropping a trailing odd element. -/
def pairUpEven : List Int → List Int
  | a :: b :: rest => a :: b :: pairUpEven rest
  | _ => []

/-- `readIndexArray(dictString, size)` (source lines 1745-1756): the
`/Index` pairs, defaulting to `[0, Size]` when the key is missing or the
content parses to nothing.  `parseInt`-invalid tokens are filtered out as
by `.filter(Number.isFinite)`. -/
def readIndexArray (dict : List Char) (size : Nat) : List Int :=
  match findPat matchIndexAt dict with
  | none => [0, (size : Int)]
  | some content =>
    let nums := (jsSplitWs (jsTrim content)).filterMap jsParseInt
    let out := pairUpEven nums
    if out.isEmpty then [0, (size : Int)] else out

/-- `readUIntBE(buf, pos, len)` (source lines 1861-1866): big-endian fold
`n = (n << 8) | byte` over `len` bytes with JavaScript 32-bit bitwise
semantics (`>>> 0`), i.e. the big-endian value modulo `2^32`; bytes beyond
the buffer read as 0 (`buf[pos+i] || 0`). -/
def readUIntBE (buf : List Nat) (pos len : Nat) : Nat :=
  if len = 0 then 0
  else (List.range len).foldl
    (fun n i => (n * 256 + buf.getD (pos + i) 0) % 4294967296) 0

/-- Anchored matcher for `/\/DecodeParms\s*<<([^>]*)>>/` (source line
1803). -/
def matchDecodeParmsAt (s : List Char) : Option (Nat × List Char) :=
  if ("/DecodeParms".toList).isPrefixOf s then
    let s1 := s.drop 12
    let w := (s1.takeWhile isJsWs).length
    match s1.drop w with
    | '<' :: '<' :: s3 =>
      let content := s3.takeWhile (fun c => c != '>')
      match s3.drop content.length with
      | '>' :: '>' :: _ => some (12 + w + 2 + content.length + 2, content)
      | _ => none
    | _ => none
  else none

/-- The `{predictor, columns}` record of `parseDecodeParms`. -/
structure DecodeParms where
  predictor : Option Nat
  columns : Option Nat
deriving DecidableEq

/-- `parseDecodeParms(dictString)` (source lines 1802-1812). -/
def parseDecodeParms (dict : List Char) : Option DecodeParms :=
  (findPat matchDecodeParmsAt dict).map (fun s =>
    ⟨findPat (matchTightKeyIntAt "Predictor".toList) s,
     findPat (matchTightKeyIntAt "Columns".toList) s⟩)

/-- The Paeth predictor of `pngPredictorDecode` (source lines 1841-1850). -/
def paethPredictor (a b c : Nat) : Nat :=
  let p : Int := (a : Int) + b - c
  let pa := (p - a).natAbs
  let pb := (p - b).natAbs
  let pc := (p - c).natAbs
  if pa ≤ pb ∧ pa ≤ pc then a else if pb ≤ pc then b else c

/-- One byte of PNG row-filter reversal (source lines 1829-1852): filters
0 (None), 1 (Sub), 2 (Up), 3 (Average), 4 (Paeth); any other filter byte
copies the input, as the source's if-chain falls through. -/
def pngFilterByte (filter x left up ul : Nat) : Nat :=
  if filter = 0 then x
  else if filter = 1 then (x + left) % 256
  else if filter = 2 then (x + up) % 256
  else if filter = 3 then (x + (left + up) / 2) % 256
  else if filter = 4 then (x + paethPredictor left up ul) % 256
  else x

/-- One decoded PNG row, byte by byte: `left` is the previously decoded
byte of this row (0 at the row start), `prev` the previous decoded row
(zeros before the first row, matching the source's
`prevRowStart >= 0 ? ... : 0` reads). -/
def pngRowGo (filter : Nat) (prev : List Nat) :
    List Nat → Nat → Nat → List Nat
  | [], _, _ => []
  | b :: rest, i, left =>
    let up := prev.getD i 0
    let ul := if i = 0 then 0 else prev.getD (i - 1) 0
    let x := pngFilterByte filter b left up ul
    x :: pngRowGo filter prev rest (i + 1) x

/-- The row loop of `pngPredictorDecode` (source lines 1821-1857): consume
a filter byte, then `rowSize` data bytes; a trailing partial row is
dropped.  The fuel is structural bookkeeping only; each step consumes at
least the filter byte, so `fuel = buf.length` is always enough. -/
def pngRowsGo (rowSize : Nat) : Nat → List Nat → List Nat → List Nat
  | 0, _, _ => []
  | _, [], _ => []
  | g + 1, f :: rest, prevRow =>
    if rest.length < rowSize then []
    else
      let cur := pngRowGo f prevRow (rest.take rowSize) 0 0
      cur ++ pngRowsGo rowSize g (rest.drop rowSize) cur

/-- `pngPredictorDecode(buf, columns)` (source lines 1814-1859). -/
def pngPredictorDecode (buf : List Nat) (columns : Nat) : List Nat :=
  pngRowsGo columns buf.length buf (List.replicate columns 0)

/-- The two maps built by the cross-reference stream decoder:
`objToOffset` (type-1 entries, `{offset: f2, gen: f3}`) and `objToObjStm`
(type-2 entries, `{objstm: f2, index: f3}`).  Object numbers are integers
because `/Index` starts parse with `parseInt` and may be negative. -/
structure XrefMaps where
  objToOffset : Int → Option XEntry
  objToObjStm : Int → Option (Nat × Nat)

/-- `new Map()` pair. -/
def emptyXrefMaps : XrefMaps := ⟨fun _ => none, fun _ => none⟩

/-- `Map.set` on a function map: overwrite the binding at `k`. -/
def mapSet {β : Type} (m : Int → Option β) (k : Int) (v : β) :
    Int → Option β :=
  fun q => if q = k then some v else m q

/-- The inner entry loop of `buildXrefMapFromXrefStream` (source lines
1783-1797): for each of the remaining entries, consume `w0+w1+w2` bytes as
three big-endian fields `(type, f2, f3)`, defaulting the type to 1 when
`w0 = 0`; record type-1 entries in `objToOffset`, type-2 entries in
`objToObjStm`, and ignore the rest (type 0 is free). -/
def decodeEntriesLoop (w0 w1 w2 : Nat) (data : List Nat) (objStart : Int) :
    Nat → Nat → Nat → XrefMaps → Nat × XrefMaps
  | 0, _, p, acc => (p, acc)
  | rem + 1, j, p, acc =>
    let type := readUIntBE data p w0
    let f2 := readUIntBE data (p + w0) w1
    let f3 := readUIntBE data (p + w0 + w1) w2
    let objNum := objStart + j
    let t := if w0 = 0 then 1 else type
    let acc2 :=
      if t = 1 then
        { acc with objToOffset := mapSet acc.objToOffset objNum ⟨f2, f3⟩ }
      else if t = 2 then
        { acc with objToObjStm := mapSet acc.objToObjStm objNum (f2, f3) }
      else acc
    decodeEntriesLoop w0 w1 w2 data objStart rem (j + 1)
      (p + w0 + w1 + w2) acc2

/-- The subsection loop of `buildXrefMapFromXrefStream` (source lines
1780-1798): `/Index` is consumed as `(objStart, count)` pairs in order; a
trailing odd element gives an `undefined` count and zero iterations, and a
negative count gives zero iterations (`j < count`). -/
def decodeXrefSubsections (w0 w1 w2 : Nat) (data : List Nat) :
    List Int → Nat → XrefMaps → XrefMaps
  | [], _, acc => acc
  | [_], _, acc => acc
  | objStart :: count :: rest, p, acc =>
    let r := decodeEntriesLoop w0 w1 w2 data objStart count.toNat 0 p acc
    decodeXrefSubsections w0 w1 w2 data rest r.1 r.2

/-- `buildXrefMapFromXrefStream(xrefObj)` (source lines 1764-1800) with the
zlib inflate oracle.  When the dictionary advertises `FlateDecode` the body
is inflated (a `none` oracle answer models the inflate exception, which
this function does not catch) and, when `/DecodeParms` carries a truthy
`/Predictor >= 10`, PNG-reversed with row width `/Columns` when that is
truthy and positive, else `w0+w1+w2`. -/
def buildXrefMapFromXrefStream (inflate : List Nat → Option (List Nat))
    (xrefObj : XrefStreamObj) : Except Unit XrefMaps :=
  match readSize xrefObj.dictString with
  | .error e => .error e
  | .ok size =>
    match readWArray xrefObj.dictString with
    | .error e => .error e
    | .ok (w0, w1, w2) =>
      let index := readIndexArray xrefObj.dictString size
      if hasSubstr xrefObj.dictString "FlateDecode".toList then
        match inflate xrefObj.streamBuffer with
        | none => .error ()
        | some infl =>
          let data :=
            match parseDecodeParms xrefObj.dictString with
            | some parms =>
              match parms.predictor with
              | some p =>
                if 10 ≤ p then
                  pngPredictorDecode infl
                    (match parms.columns with
                     | some c => if 0 < c then c else w0 + w1 + w2
                     | none => w0 + w1 + w2)
                else infl
              | none => infl
            | none => infl
          .ok (decodeXrefSubsections w0 w1 w2 data index 0 emptyXrefMaps)
      else
        .ok (decodeXrefSubsections w0 w1 w2 xrefObj.streamBuffer index 0
          emptyXrefMaps)

/-! ### Specification-side decoding for C5

An independent formulation of the cross-reference stream decode: the flat
list of recorded assignments, each entry read at its own absolute byte
position `p + j * (w0+w1+w2)`, subsections in `/Index` order; the maps are
the later-wins readings of that list (`Map.set` overwrites). -/

/-- The big-endian value of `len` bytes at `pos` (no 32-bit truncation). -/
def beVal (data : List Nat) (pos len : Nat) : Nat :=
  (List.range len).foldr
    (fun i acc => data.getD (pos + i) 0 * 256 ^ (len - 1 - i) + acc) 0

/-- A recorded cross-reference assignment. -/
inductive XrefAssign where
  | direct (objNum : Int) (offset gen : Nat)
  | compressed (objNum : Int) (objstm index : Nat)
deriving DecidableEq

/-- The assignments of one subsection, each of the `count` entries read at
byte position `p + j * (w0+w1+w2)`: type field, then `f2`, then `f3`, with
the type defaulting to 1 when `w0 = 0`; type-1 entries are direct, type-2
compressed, all others ignored. -/
def specSubsectionEntries (w0 w1 w2 : Nat) (data : List Nat)
    (objStart : Int) (count : Nat) (p : Nat) : List XrefAssign :=
  (List.range count).filterMap (fun j =>
    let base := p + j * (w0 + w1 + w2)
    let type := readUIntBE data base w0
    let f2 := readUIntBE data (base + w0) w1
    let f3 := readUIntBE data (base + w0 + w1) w2
    let t := if w0 = 0 then 1 else type
    if t = 1 then some (.direct (objStart + j) f2 f3)
    else if t = 2 then some (.compressed (objStart + j) f2 f3)
    else none)

/-- The assignments of all `/Index` subsections in order; each subsection
consumes exactly `count * (w0+w1+w2)` bytes. -/
def specXrefAssigns (w0 w1 w2 : Nat) (data : List Nat) :
    List Int → Nat → List XrefAssign
  | [], _ => []
  | [_], _ => []
  | objStart :: count :: rest, p =>
    specSubsectionEntries w0 w1 w2 data objStart count.toNat p ++
      specXrefAssigns w0 w1 w2 data rest
        (p + count.toNat * (w0 + w1 + w2))

/-- Later-wins reading of the direct entries of an assignment list: a
binding later in the list shadows an earlier one, as successive `Map.set`
calls do. -/
def assignsOffset : List XrefAssign → Int → Option XEntry
  | [], _ => none
  | a :: l, q =>
    match assignsOffset l q with
    | some v => some v
    | none =>
      match a with
      | .direct o f2 f3 => if q = o then some ⟨f2, f3⟩ else none
      | .compressed _ _ _ => none

/-- Later-wins reading of the compressed entries of an assignment list. -/
def assignsObjStm : List XrefAssign → Int → Option (Nat × Nat)
  | [], _ => none
  | a :: l, q =>
    match assignsObjStm l q with
    | some v => some v
    | none =>
      match a with
      | .compressed o f2 f3 => if q = o then some (f2, f3) else none
      | .direct _ _ _ => none

/-! ## Byte-level reading helpers

Source lines 1012-1120: the whitespace skipper, ASCII readers, line reader,
line advancer, keyword peek and balanced-dictionary reader used by the
classic xref parsers and `readStreamObject`.  The buffer is a `List Char`
of latin-1 code points (byte-for-byte). -/

/-- `skipWhitespace(buffer, pos)` (source lines 1012-1029): advance over
NUL, TAB, LF, FF, CR and space. -/
def skipWhitespace (buffer : List Char) (pos : Nat) : Nat :=
  pos + ((buffer.drop pos).takeWhile isPdfWs).length

/-- `readAscii(buffer, pos, len)` (source lines 1047-1049):
`buffer.toString("latin1", pos, pos + len)`, clamped at the buffer end. -/
def readAscii (buffer : List Char) (pos len : Nat) : List Char :=
  (buffer.drop pos).take len

/-- `readLineAscii(buffer, pos)` (source lines 1051-1060): the characters
from `pos` up to the next CR or LF (empty at or past the end). -/
def readLineAscii (buffer : List Char) (pos : Nat) : List Char :=
  (buffer.drop pos).takeWhile (fun c => !(c == '\n' || c == '\r'))

/-- The cursor loop of `advanceToNextLine` over the remaining characters;
`p` is the absolute position of the list head. -/
def advGo : List Char → Nat → Nat
  | [], p => p
  | c :: rest, p =>
    if c = '\n' then p + 1
    else if c = '\r' then
      match rest with
      | '\n' :: _ => p + 2
      | _ => p + 1
    else advGo rest (p + 1)

/-- `advanceToNextLine(buffer, pos)` (source lines 1062-1073): the position
just past the next LF, CR or CRLF (the buffer length when none remains). -/
def advanceToNextLine (buffer : List Char) (pos : Nat) : Nat :=
  advGo (buffer.drop pos) pos

/-- `peekKeyword(buffer, pos, kw)` (source lines 1075-1078). -/
def peekKeyword (buffer : List Char) (pos : Nat) (kw : List Char) : Bool :=
  (buffer.drop pos).take kw.length == kw

/-- The balanced `<< >>` scan of `readDictString` (source lines 1096-1120);
`p` is the absolute cursor, `depth` the current nesting.  The fuel is
structural bookkeeping only; each step advances the cursor and the loop
runs while `p < buffer.length`, so `fuel = buffer.length` is always
enough. -/
def readDictGo (buffer : List Char) : Nat → Nat → Int → Nat
  | 0, p, _ => p
  | fuel + 1, p, depth =>
    if p < buffer.length then
      if buffer[p]? = some '<' ∧ buffer[p + 1]? = some '<' then
        readDictGo buffer fuel (p + 2) (depth + 1)
      else if buffer[p]? = some '>' ∧ buffer[p + 1]? = some '>' then
        if depth - 1 = 0 then p + 2
        else readDictGo buffer fuel (p + 2) (depth - 1)
      else readDictGo buffer fuel (p + 1) depth
    else p

/-- `readDictString(buffer, pos)` (source lines 1096-1120): the dictionary
text from `pos` to the matching `>>` and the end position.  Callers check
for `<<` at `pos` before calling, as the source does. -/
def readDictString (buffer : List Char) (pos : Nat) : List Char × Nat :=
  let endPos := readDictGo buffer buffer.length pos 0
  ((buffer.drop pos).take (endPos - pos), endPos)

/-! ## Classic xref entry lines and the `/Prev` chain builders

Source lines 920-937 (single-table entry loop) and 1580-1628
(`buildClassicXrefOffsetsFollowingPrevChain`). -/

/-- Anchored matcher for the entry-line regex `/^(\d{10})\s+(\d{5})\s+([nf])/`
(source lines 923, 1601): exactly ten digits, whitespace, exactly five
digits, whitespace, then a flag byte `n` or `f`. -/
def matchXrefEntryLine (line : List Char) : Option (Nat × Nat × Char) :=
  let d1 := line.take 10
  if d1.length = 10 ∧ d1.all isDigitCh then
    let r1 := line.drop 10
    let w1 := (r1.takeWhile isJsWs).length
    if w1 = 0 then none
    else
      let r2 := r1.drop w1
      let d2 := r2.take 5
      if d2.length = 5 ∧ d2.all isDigitCh then
        let r3 := r2.drop 5
        let w2 := (r3.takeWhile isJsWs).length
        if w2 = 0 then none
        else
          match r3.drop w2 with
          | c :: _ =>
            if c = 'n' ∨ c = 'f' then
              some (digitsToNat d1, digitsToNat d2, c)
            else none
          | [] => none
      else none
  else none

/-- One entry iteration of the chain builder's inner loop (source lines
1600-1611): read a line, and on an `n`-flagged match record
`firstObj + i ↦ {offset, gen}` only when the object number is not yet
present (`if (!objectOffsets.has(objNum))`, first-seen wins).  A `NaN`
`firstObj` (`none` here) writes only the unreadable `NaN` key in the
source and is modelled as no write. -/
def chainEntryStep (buffer : List Char) (firstObj : Option Int) (i : Nat)
    (st : (Int → Option XEntry) × Nat) : (Int → Option XEntry) × Nat :=
  let m :=
    match matchXrefEntryLine (readLineAscii buffer st.2), firstObj with
    | some (off, gen, flag), some fo =>
      if flag = 'n' then
        if (st.1 (fo + i)).isSome then st.1
        else mapSet st.1 (fo + i) ⟨off, gen⟩
      else st.1
    | _, _ => st.1
  (m, advanceToNextLine buffer st.2)

/-- One entry iteration of the single-table parser's loop (source lines
920-933): an empty line throws (`Unexpected EOF in xref entries`); an
`n`-flagged match records `firstObj + i ↦ {offset, gen}` unconditionally
(`Map.set` overwrites).  The source's `Number.isFinite(offset)` guard is
always true for a ten-digit capture and is dropped. -/
def tableEntryStep (buffer : List Char) (firstObj : Int) (i : Nat)
    (st : (Int → Option XEntry) × Nat) :
    Except Unit ((Int → Option XEntry) × Nat) :=
  let line := readLineAscii buffer st.2
  if line = [] then .error ()
  else
    let m :=
      match matchXrefEntryLine line with
      | some (off, gen, flag) =>
        if flag = 'n' then mapSet st.1 (firstObj + i) ⟨off, gen⟩ else st.1
      | none => st.1
    .ok (m, advanceToNextLine buffer st.2)

/-- The subsection loop of the chain builder (source lines 1590-1613):
while the cursor is in the buffer and not at `trailer`, read a `start
count` header line, run `count` entry iterations, then skip whitespace.
The fuel is structural bookkeeping only; each iteration advances past a
non-empty header line, so `fuel = buffer.length + 1` is always enough. -/
def chainSubsGo (buffer : List Char) :
    Nat → (Int → Option XEntry) → Nat → (Int → Option XEntry) × Nat
  | 0, m, pos => (m, pos)
  | fuel + 1, m, pos =>
    if pos < buffer.length then
      if peekKeyword buffer pos "trailer".toList then (m, pos)
      else
        let header := readLineAscii buffer pos
        if header = [] then (m, pos)
        else
          let parts := jsSplitWs (jsTrim header)
          if parts.length < 2 then (m, pos)
          else
            let firstObj := jsParseInt (parts.getD 0 [])
            let count := jsParseInt (parts.getD 1 [])
            let countN := match count with | some c => c.toNat | none => 0
            let st := (List.range countN).foldl
              (fun s i => chainEntryStep buffer firstObj i s)
              (m, advanceToNextLine buffer pos)
            chainSubsGo buffer fuel st.1 (skipWhitespace buffer st.2)
    else (m, pos)

/-- The hop loop of `buildClassicXrefOffsetsFollowingPrevChain` (source
lines 1585-1625): at each revision expect `xref`, parse its subsections,
then the trailer dictionary; keep the first trailer seen
(`trailerDictString || dictString`) and follow an in-range `/Prev`.
`hopsLeft` is the remaining hop budget (`10 - hops`); the source's
`hops < 10` bound is the structural recursion on it. -/
def classicChainGo (buffer : List Char) :
    Nat → Nat → (Int → Option XEntry) → List Char →
    (Int → Option XEntry) × List Char
  | 0, _, m, t => (m, t)
  | hopsLeft + 1, offset, m, t =>
    if 0 < offset then
      if readAscii buffer offset 4 = "xref".toList then
        let st := chainSubsGo buffer (buffer.length + 1) m
          (skipWhitespace buffer (offset + 4))
        if peekKeyword buffer st.2 "trailer".toList then
          let pos2 := skipWhitespace buffer (st.2 + 7)
          if buffer[pos2]? = some '<' ∧ buffer[pos2 + 1]? = some '<' then
            let d := readDictString buffer pos2
            let t1 := if t = [] then d.1 else t
            match parseIntFromDict d.1 "Prev".toList with
            | some prev =>
              if 0 < prev ∧ prev < buffer.length then
                classicChainGo buffer hopsLeft prev st.1 t1
              else (st.1, t1)
            | none => (st.1, t1)
          else (st.1, t)
        else (st.1, t)
      else (m, t)
    else (m, t)

/-- `buildClassicXrefOffsetsFollowingPrevChain(buffer, startOffset)`
(source lines 1580-1628): the merged offset map and the latest trailer
dictionary, throwing (`No trailer found`) when no trailer was seen. -/
def buildClassicXrefOffsetsFollowingPrevChain (buffer : List Char)
    (startOffset : Nat) :
    Except Unit ((Int → Option XEntry) × List Char) :=
  let r := classicChainGo buffer 10 startOffset (fun _ => none) []
  if r.2 = [] then .error () else .ok r

/-! ## The xref-stream `/Prev` chain builder

Source lines 1631-1672 (`buildXrefMapFromXrefStreamChain`) and 1712-1737
(`readStreamObject`). -/

/-- Anchored matcher for the object header regex `/^(\d+)\s+(\d+)\s+obj\b/`
(source lines 1715, 1550). -/
def matchObjHeaderAt (s : List Char) : Option (Nat × Nat) :=
  let d1 := s.takeWhile isDigitCh
  if d1.isEmpty then none else
  let s1 := s.drop d1.length
  let w1 := (s1.takeWhile isJsWs).length
  if w1 = 0 then none else
  let s2 := s1.drop w1
  let d2 := s2.takeWhile isDigitCh
  if d2.isEmpty then none else
  let s3 := s2.drop d2.length
  let w2 := (s3.takeWhile isJsWs).length
  if w2 = 0 then none else
  let s4 := s3.drop w2
  if ("obj".toList).isPrefixOf s4 then
    match s4.drop 3 with
    | [] => some (digitsToNat d1, digitsToNat d2)
    | c :: _ => if isWordCh c then none else some (digitsToNat d1, digitsToNat d2)
  else none

/-- The space/CR/LF skip after the `stream` keyword (source lines
1726-1731 and 1225-1231). -/
def skipStreamEol (buffer : List Char) (pos : Nat) : Nat :=
  pos + ((buffer.drop pos).takeWhile
    (fun c => c == ' ' || c == '\r' || c == '\n')).length

/-- `readStreamObject(buffer, offset)` (source lines 1712-1737): object
header line, dictionary, then the raw bytes between `stream` and
`endstream`. -/
def readStreamObject (buffer : List Char) (offset : Nat) :
    Except Unit XrefStreamObj :=
  match matchObjHeaderAt (jsTrim (readLineAscii buffer offset)) with
  | none => .error ()
  | some _ =>
    let pos1 := skipWhitespace buffer (advanceToNextLine buffer offset)
    if buffer[pos1]? = some '<' ∧ buffer[pos1 + 1]? = some '<' then
      let d := readDictString buffer pos1
      match indexOfFrom buffer "stream".toList d.2 with
      | none => .error ()
      | some idx =>
        let dataStart := skipStreamEol buffer (idx + 6)
        match indexOfFrom buffer "endstream".toList dataStart with
        | none => .error ()
        | some endIdx =>
          .ok ⟨d.1, ((buffer.drop dataStart).take (endIdx - dataStart)).map
            Char.toNat⟩
    else .error ()

/-- The classic-fallback merge of the stream chain (source lines
1648-1653): keep every binding `merged` already has, fill the rest from
the classic offset map. -/
def mergeClassicFirstSeen (merged : XrefMaps)
    (offs : Int → Option XEntry) : XrefMaps :=
  { merged with
    objToOffset := fun k =>
      match merged.objToOffset k with
      | some v => some v
      | none => offs k }

/-- The stream-revision merge of the chain (source lines 1659-1664):
first-seen wins on both maps. -/
def mergeMapsFirstSeen (merged mp : XrefMaps) : XrefMaps :=
  ⟨fun k =>
    match merged.objToOffset k with
    | some v => some v
    | none => mp.objToOffset k,
   fun k =>
    match merged.objToObjStm k with
    | some v => some v
    | none => mp.objToObjStm k⟩

/-- The hop loop of `buildXrefMapFromXrefStreamChain` (source lines
1636-1670): while `/Prev` is a finite in-range positive integer, either
merge a whole classic chain and stop, or read the previous xref stream,
merge it first-seen and follow its own `/Prev`.  `hopsLeft` is the
remaining hop budget (`10 - hops`). -/
def streamChainGo (inflate : List Nat → Option (List Nat))
    (buffer : List Char) :
    Nat → XrefMaps → Option Nat → Except Unit XrefMaps
  | 0, merged, _ => .ok merged
  | hopsLeft + 1, merged, prevOpt =>
    match prevOpt with
    | none => .ok merged
    | some prev =>
      if 0 < prev ∧ prev < buffer.length then
        if readAscii buffer prev 4 = "xref".toList then
          match buildClassicXrefOffsetsFollowingPrevChain buffer prev with
          | .error e => .error e
          | .ok r => .ok (mergeClassicFirstSeen merged r.1)
        else
          match readStreamObject buffer prev with
          | .error e => .error e
          | .ok xo =>
            if testTypeXRef xo.dictString then
              match buildXrefMapFromXrefStream inflate xo with
              | .error e => .error e
              | .ok mp =>
                streamChainGo inflate buffer hopsLeft
                  (mergeMapsFirstSeen merged mp)
                  (parseIntFromDict xo.dictString "Prev".toList)
            else .ok merged
      else .ok merged

/-- `buildXrefMapFromXrefStreamChain(buffer, firstXrefObj)` (source lines
1631-1672) with the zlib inflate oracle. -/
def buildXrefMapFromXrefStreamChain (inflate : List Nat → Option (List Nat))
    (buffer : List Char) (firstXrefObj : XrefStreamObj) :
    Except Unit XrefMaps :=
  match buildXrefMapFromXrefStream inflate firstXrefObj with
  | .error e => .error e
  | .ok merged =>
    streamChainGo inflate buffer 10 merged
      (parseIntFromDict firstXrefObj.dictString "Prev".toList)

/-! ## The object-stream `/Count` scan

Source lines 1204-1269 (`scanMaxPagesCountFromObjectStreams`). -/

/-- The heuristic dictionary capture before a `stream` keyword (source
lines 1213-1219): the slice from the last `<<` at or before `streamIdx`
to two past the last `>>`, empty unless both exist in that order. -/
def scanObjStmDictAt (s : List Char) (streamIdx : Nat) : List Char :=
  match lastIndexOfUpTo s "<<".toList streamIdx,
      lastIndexOfUpTo s ">>".toList streamIdx with
  | some o, some c => if o < c then (s.drop o).take (c + 2 - o) else []
  | _, _ => []

/-- The per-stream window maximum (source lines 1242-1254): for every
`/Type /Pages` match in the inflated text, look for the first
`/Count (\d+)` in the window from 1024 before the match to 50000 after
it, and keep the largest value seen. -/
def countWindowMax (text : List Char) : Nat :=
  (findAllPat (matchTypeNameAt "Pages".toList) text 0).foldl
    (fun localMax t =>
      let winStart := t.1 - 1024
      let winEnd := min text.length (t.1 + 50000)
      let window := (text.drop winStart).take (winEnd - winStart)
      match findPat (matchTightKeyIntAt "Count".toList) window with
      | some c => if localMax < c then c else localMax
      | none => localMax) 0

/-- One stream occurrence examined (source lines 1213-1262): `some
localMax` when the captured dictionary advertises `FlateDecode`, an
`endstream` follows, the slice length is in `(0, 10 MiB]` and the oracle
inflates it; `none` when any of that fails (the source then falls through
without touching `globalMax`). -/
def streamLocalMax (inflate : List Nat → Option (List Nat))
    (buffer : List Char) (streamIdx : Nat) : Option Nat :=
  let dictString := scanObjStmDictAt buffer streamIdx
  if hasSubstr dictString "FlateDecode".toList then
    let dataStart := skipStreamEol buffer (streamIdx + 6)
    match indexOfFrom buffer "endstream".toList dataStart with
    | none => none
    | some endIdx =>
      let streamBuf :=
        ((buffer.drop dataStart).take (endIdx - dataStart)).map Char.toNat
      if 0 < streamBuf.length ∧ streamBuf.length ≤ 10485760 then
        match inflate streamBuf with
        | some infl => some (countWindowMax (infl.map Char.ofNat))
        | none => none
      else none
  else none

/-- The `while (true)` scan loop (source lines 1209-1266): find the next
`stream` keyword, examine it, raise `globalMax`, and return as soon as it
is positive after a successfully examined stream; otherwise resume six
characters past the keyword.  The fuel is structural bookkeeping only;
each step advances past the found keyword, so `fuel = buffer.length + 1`
is always enough. -/
def scanObjStmGo (inflate : List Nat → Option (List Nat))
    (buffer : List Char) : Nat → Nat → Nat → Nat
  | 0, _, globalMax => globalMax
  | fuel + 1, pos, globalMax =>
    match indexOfFrom buffer "stream".toList pos with
    | none => globalMax
    | some streamIdx =>
      match streamLocalMax inflate buffer streamIdx with
      | some localMax =>
        let g := if globalMax < localMax then localMax else globalMax
        if 0 < g then g else scanObjStmGo inflate buffer fuel (streamIdx + 6) g
      | none => scanObjStmGo inflate buffer fuel (streamIdx + 6) globalMax

/-- `scanMaxPagesCountFromObjectStreams(buffer)` (source lines 1204-1269)
with the zlib inflate oracle. -/
def scanMaxPagesCountFromObjectStreams
    (inflate : List Nat → Option (List Nat)) (buffer : List Char) : Nat :=
  scanObjStmGo inflate buffer (buffer.length + 1) 0 0

/-- The `stream` keyword positions the scan loop visits, in order: each
found occurrence, resuming six characters past it. -/
def streamTokenPositions (buffer : List Char) : Nat → Nat → List Nat
  | 0, _ => []
  | fuel + 1, pos =>
    match indexOfFrom buffer "stream".toList pos with
    | none => []
    | some streamIdx =>
      streamIdx :: streamTokenPositions buffer fuel (streamIdx + 6)

/-- Specification-side reading of the scan: the local maximum of the
first visited stream occurrence that is successfully examined with a
positive window maximum, and 0 when there is none. -/
def firstProductiveStreamMax (inflate : List Nat → Option (List Nat))
    (buffer : List Char) : Nat :=
  ((streamTokenPositions buffer (buffer.length + 1) 0).filterMap
    (fun si =>
      match streamLocalMax inflate buffer si with
      | some lm => if 0 < lm then some lm else none
      | none => none)).headD 0

/-! ## Concrete inputs for the chain and scan demonstrations -/

/-- Two classic revisions: the latest at offset 69 maps object 0 to
offset 17 and its trailer's `/Prev 1` points at the earlier revision at
offset 1, which maps object 0 to offset 42 and object 1 to offset 99. -/
def demoChainBuf : List Char :=
  ("Zxref\n0 2\n0000000042 00000 n \n0000000099 00000 n \n" ++
    "trailer <</Size 5>>" ++
    "xref\n0 1\n0000000017 00000 n \ntrailer <</Root 1 0 R /Prev 1>>").toList

/-- A classic revision at offset 1 whose trailer's `/Prev 1` points back
at itself: a cyclic `/Prev` chain. -/
def demoCycleBuf : List Char :=
  "Zxref\n0 1\n0000000017 00000 n \ntrailer <</Prev 1>>".toList

/-- An uncompressed xref stream object mapping object 0 to offset 17,
whose `/Prev 1` points at the classic revision chain of
`demoChainBuf`. -/
def demoXrefObj : XrefStreamObj :=
  ⟨"<</Type /XRef /Size 1 /W [1 1 1] /Prev 1>>".toList, [1, 17, 0]⟩

/-- A single well-formed xref entry line. -/
def demoEntryBuf : List Char := "0000000017 00000 n \n".toList

/-- Two FlateDecode streams; inflated by `demoObjStmInflate`, the first
yields window maximum 3 and the second 5. -/
def demoObjStmBuf : List Char :=
  ("<</Filter /FlateDecode>>stream\nA\nendstream" ++
    "<</Filter /FlateDecode>>stream\nB\nendstream").toList

/-- The inflate oracle for `demoObjStmBuf`: the first stream body inflates
to a `/Type /Pages /Count 3` node, the second to `/Count 5`; everything
else fails to inflate. -/
def demoObjStmInflate : List Nat → Option (List Nat) :=
  fun b =>
    if b = [65, 10] then
      some (("/Type /Pages /Count 3".toList).map Char.toNat)
    else if b = [66, 10] then
      some (("/Type /Pages /Count 5".toList).map Char.toNat)
    else none

/-- A positive lower bound survives the heuristic guard. -/
theorem jsGuardMax_pos {a n : Int} (h : 0 < n) : 0 < jsGuardMax a n := by
  unfold jsGuardMax
  split <;> omega

theorem yieldsResult_some_cons (v : Int) (l : List (Option Int)) :
    yieldsResult (some v :: l) = .ok v := by
  simp [yieldsResult, firstYield]

theorem yieldsResult_none_cons (l : List (Option Int)) :
    yieldsResult (none :: l) = yieldsResult l := by
  simp [yieldsResult, firstYield]

theorem countStep5_eq (S : StrategyOutcomes) :
    countStep5 S = yieldsResult
      [posYield S.scanMax, posYield S.scanMaxObjStm, posYield S.pageObjects] := by
  unfold countStep5 posYield
  split_ifs <;> simp_all [yieldsResult, firstYield]

theorem countStep4_eq (S : StrategyOutcomes) :
    countStep4 S = yieldsResult
      ((strategyYield S.xrefStreamCount).map (jsGuardMax S.pageObjects) ::
       [posYield S.scanMax, posYield S.scanMaxObjStm, posYield S.pageObjects]) := by
  unfold countStep4
  rcases h : S.xrefStreamCount with e | n
  · rw [show strategyYield (Except.error e) = none from rfl,
      Option.map_none', yieldsResult_none_cons]
    exact countStep5_eq S
  · by_cases hn : 0 < n
    · rw [show strategyYield (Except.ok n) = some n by
        simp [strategyYield, hn], Option.map_some', yieldsResult_some_cons]
      change (if 0 < n then Except.ok (jsGuardMax S.pageObjects n)
        else countStep5 S) = _
      rw [if_pos hn]
    · rw [show strategyYield (Except.ok n) = none by
        simp [strategyYield, hn], Option.map_none', yieldsResult_none_cons]
      change (if 0 < n then Except.ok (jsGuardMax S.pageObjects n)
        else countStep5 S) = _
      rw [if_neg hn]
      exact countStep5_eq S

theorem countStep3_eq (S : StrategyOutcomes) :
    countStep3 S = yieldsResult
      ((strategyYield S.classicXrefCount).map (jsGuardMax S.pageObjects) ::
       (strategyYield S.xrefStreamCount).map (jsGuardMax S.pageObjects) ::
       [posYield S.scanMax, posYield S.scanMaxObjStm, posYield S.pageObjects]) := by
  unfold countStep3
  rcases h : S.classicXrefCount with e | n
  · rw [show strategyYield (Except.error e) = none from rfl,
      Option.map_none', yieldsResult_none_cons]
    exact countStep4_eq S
  · by_cases hn : 0 < n
    · rw [show strategyYield (Except.ok n) = some n by
        simp [strategyYield, hn], Option.map_some', yieldsResult_some_cons]
      change (if 0 < n then Except.ok (jsGuardMax S.pageObjects n)
        else countStep4 S) = _
      rw [if_pos hn]
    · rw [show strategyYield (Except.ok n) = none by
        simp [strategyYield, hn], Option.map_none', yieldsResult_none_cons]
      change (if 0 < n then Except.ok (jsGuardMax S.pageObjects n)
        else countStep4 S) = _
      rw [if_neg hn]
      exact countStep4_eq S

theorem countStep2_eq (S : StrategyOutcomes) :
    countStep2 S = yieldsResult
      (strategyYield S.classicTraversal ::
       (strategyYield S.classicXrefCount).map (jsGuardMax S.pageObjects) ::
       (strategyYield S.xrefStreamCount).map (jsGuardMax S.pageObjects) ::
       [posYield S.scanMax, posYield S.scanMaxObjStm, posYield S.pageObjects]) := by
  unfold countStep2
  rcases h : S.classicTraversal with e | n
  · rw [show strategyYield (Except.error e) = none from rfl,
      yieldsResult_none_cons]
    exact countStep3_eq S
  · by_cases hn : 0 < n
    · rw [show strategyYield (Except.ok n) = some n by
        simp [strategyYield, hn], yieldsResult_some_cons]
      change (if 0 < n then Except.ok n else countStep3 S) = _
      rw [if_pos hn]
    · rw [show strategyYield (Except.ok n) = none by
        simp [strategyYield, hn], yieldsResult_none_cons]
      change (if 0 < n then Except.ok n else countStep3 S) = _
      rw [if_neg hn]
      exact countStep3_eq S

/-- The orchestrator returns the first strategy yield in order, and its only
failure is the single parse error. -/
theorem countPdfPagesSync_eq_firstYield (S : StrategyOutcomes) :
    countPdfPagesSync S = yieldsResult (strategyYields S) := by
  have hS : strategyYields S =
      strategyYield S.xrefStreamTraversal ::
      strategyYield S.classicTraversal ::
      (strategyYield S.classicXrefCount).map (jsGuardMax S.pageObjects) ::
      (strategyYield S.xrefStreamCount).map (jsGuardMax S.pageObjects) ::
      [posYield S.scanMax, posYield S.scanMaxObjStm, posYield S.pageObjects] := rfl
  rw [hS]
  unfold countPdfPagesSync
  rcases h : S.xrefStreamTraversal with e | n
  · rw [show strategyYield (Except.error e) = none from rfl,
      yieldsResult_none_cons]
    exact countStep2_eq S
  · by_cases hn : 0 < n
    · rw [show strategyYield (Except.ok n) = some n by
        simp [strategyYield, hn], yieldsResult_some_cons]
      change (if 0 < n then Except.ok n else countStep2 S) = _
      rw [if_pos hn]
    · rw [show strategyYield (Except.ok n) = none by
        simp [strategyYield, hn], yieldsResult_none_cons]
      change (if 0 < n then Except.ok n else countStep2 S) = _
      rw [if_neg hn]
      exact countStep2_eq S

/-- A `strategyYield` is always positive. -/
theorem strategyYield_pos (e : Except Unit Int) (v : Int)
    (h : strategyYield e = some v) : 0 < v := by
  rcases e with _ | n
  · simp [strategyYield] at h
  · unfold strategyYield at h
    split at h
    · split at h
      · simp only [Option.some.injEq] at h
        omega
      · simp at h
    · simp at h

/-- A `posYield` is always positive. -/
theorem posYield_pos (n v : Int) (h : posYield n = some v) : 0 < v := by
  unfold posYield at h
  split at h <;> simp_all

/-- Every yield in the strategy list is positive. -/
theorem strategyYields_pos (S : StrategyOutcomes) :
    ∀ o ∈ strategyYields S, ∀ v, o = some v → 0 < v := by
  intro o ho v hv
  simp only [strategyYields, List.mem_cons, List.not_mem_nil, or_false] at ho
  rcases ho with h | h | h | h | h | h | h
  · exact strategyYield_pos _ v (h ▸ hv)
  · exact strategyYield_pos _ v (h ▸ hv)
  · subst h
    rcases hm : strategyYield S.classicXrefCount with _ | n' <;> rw [hm] at hv
    · exact absurd hv (by simp)
    · rw [Option.map_some', Option.some.injEq] at hv
      exact hv ▸ jsGuardMax_pos (strategyYield_pos _ _ hm)
  · subst h
    rcases hm : strategyYield S.xrefStreamCount with _ | n <;> rw [hm] at hv
    · exact absurd hv (by simp)
    · rw [Option.map_some', Option.some.injEq] at hv
      exact hv ▸ jsGuardMax_pos (strategyYield_pos _ _ hm)
  · exact posYield_pos _ v (h ▸ hv)
  · exact posYield_pos _ v (h ▸ hv)
  · exact posYield_pos _ v (h ▸ hv)

/-- A first yield of the orchestrator's strategy list is positive. -/
theorem firstYield_strategyYields_pos (S : StrategyOutcomes) (v : Int)
    (h : firstYield (strategyYields S) = some v) : 0 < v := by
  unfold firstYield at h
  have hv : v ∈ (strategyYields S).filterMap id := List.mem_of_mem_head? h
  rcases List.mem_filterMap.mp hv with ⟨o, ho, hov⟩
  exact strategyYields_pos S o ho v hov

/-- The heuristic guard computes the maximum. -/
theorem jsGuardMax_eq_max (a n : Int) : jsGuardMax a n = max n a := by
  unfold jsGuardMax
  split <;> omega

/-- C1: for every byte-buffer input (modelled by the outcomes of the seven
strategy computations on that buffer, the accurate ones throwing arbitrary
internal errors), `countPdfPagesSync` either returns a positive integer or
fails with the single parse error `"PDF page count not found"`; exceptions
of accurate strategies are absorbed by the orchestrator's `catch` blocks
and no call path returns `0` or a negative number. -/
theorem c1_positive_or_single_parse_error (S : StrategyOutcomes) :
    (∃ n : Int, countPdfPagesSync S = .ok n ∧ 0 < n) ∨
    countPdfPagesSync S = .error "PDF page count not found" := by
  rcases h : firstYield (strategyYields S) with _ | v
  · right
    rw [countPdfPagesSync_eq_firstYield]
    unfold yieldsResult
    rw [h]
  · left
    refine ⟨v, ?_, firstYield_strategyYields_pos S v h⟩
    rw [countPdfPagesSync_eq_firstYield]
    unfold yieldsResult
    rw [h]

/-- C2: `countPdfPagesSync` tries the strategies in exactly the order
xref-stream traversal, classic traversal, classic-xref `/Count` with
heuristic guard, xref-stream `/Count` with heuristic guard, nearest-count
raw scan, nearest-count inflated scan, page-object counter, and returns the
yield of the first strategy that produces a positive integer; the result is
therefore independent of every strategy after the first successful one. -/
theorem c2_strategies_in_order_first_positive (S : StrategyOutcomes) :
    countPdfPagesSync S =
      match firstYield
        [strategyYield S.xrefStreamTraversal,
         strategyYield S.classicTraversal,
         (strategyYield S.classicXrefCount).map (jsGuardMax S.pageObjects),
         (strategyYield S.xrefStreamCount).map (jsGuardMax S.pageObjects),
         posYield S.scanMax,
         posYield S.scanMaxObjStm,
         posYield S.pageObjects] with
      | some n => .ok n
      | none => .error "PDF page count not found" :=
  countPdfPagesSync_eq_firstYield S

/-- C6: in strategies 3 and 4, when the `/Count` fast path returns a
positive `n`, the orchestrator returns the maximum of `n` and the
page-object counter's result; the heuristic count is preferred exactly when
it is strictly larger, otherwise `n` is returned unchanged. -/
theorem c6_count_guarded_by_page_objects (S : StrategyOutcomes) (n : Int)
    (h1 : strategyYield S.xrefStreamTraversal = none)
    (h2 : strategyYield S.classicTraversal = none) :
    (S.classicXrefCount = .ok n → 0 < n →
      countPdfPagesSync S = .ok (max n S.pageObjects) ∧
      (n < S.pageObjects → countPdfPagesSync S = .ok S.pageObjects) ∧
      (S.pageObjects ≤ n → countPdfPagesSync S = .ok n)) ∧
    (strategyYield S.classicXrefCount = none →
     S.xrefStreamCount = .ok n → 0 < n →
      countPdfPagesSync S = .ok (max n S.pageObjects) ∧
      (n < S.pageObjects → countPdfPagesSync S = .ok S.pageObjects) ∧
      (S.pageObjects ≤ n → countPdfPagesSync S = .ok n)) := by
  constructor
  · intro h3 hn
    have hy : strategyYield S.classicXrefCount = some n := by
      simp [strategyYield, h3, hn]
    have hmain : countPdfPagesSync S = .ok (max n S.pageObjects) := by
      rw [countPdfPagesSync_eq_firstYield,
        show strategyYields S =
          strategyYield S.xrefStreamTraversal ::
          strategyYield S.classicTraversal ::
          (strategyYield S.classicXrefCount).map (jsGuardMax S.pageObjects) ::
          (strategyYield S.xrefStreamCount).map (jsGuardMax S.pageObjects) ::
          [posYield S.scanMax, posYield S.scanMaxObjStm,
           posYield S.pageObjects] from rfl,
        h1, h2, hy, yieldsResult_none_cons, yieldsResult_none_cons,
        Option.map_some', yieldsResult_some_cons, jsGuardMax_eq_max]
    refine ⟨hmain, fun hlt => ?_, fun hle => ?_⟩
    · rw [hmain, max_eq_right (le_of_lt hlt)]
    · rw [hmain, max_eq_left hle]
  · intro h3 h4 hn
    have hy : strategyYield S.xrefStreamCount = some n := by
      simp [strategyYield, h4, hn]
    have hmain : countPdfPagesSync S = .ok (max n S.pageObjects) := by
      rw [countPdfPagesSync_eq_firstYield,
        show strategyYields S =
          strategyYield S.xrefStreamTraversal ::
          strategyYield S.classicTraversal ::
          (strategyYield S.classicXrefCount).map (jsGuardMax S.pageObjects) ::
          (strategyYield S.xrefStreamCount).map (jsGuardMax S.pageObjects) ::
          [posYield S.scanMax, posYield S.scanMaxObjStm,
           posYield S.pageObjects] from rfl,
        h1, h2, h3, hy, Option.map_none', yieldsResult_none_cons,
        yieldsResult_none_cons, yieldsResult_none_cons,
        Option.map_some', yieldsResult_some_cons, jsGuardMax_eq_max]
    refine ⟨hmain, fun hlt => ?_, fun hle => ?_⟩
    · rw [hmain, max_eq_right (le_of_lt hlt)]
    · rw [hmain, max_eq_left hle]

/-- The kid loop sums the kids' recursive page counts: when every kid's own
traversal at the loop's fuel succeeds with value `c k`, the loop returns
the accumulator plus the sum of the `c k`. -/
theorem kidsSumLoop_eq_sum (fuel : Nat) (env : MapEnv) (c : ObjRef → Nat) :
    ∀ (kids : List ObjRef) (s : Nat),
      (∀ k ∈ kids, traversePagesNodeMap fuel env k = some (.ok (c k))) →
      kidsSumLoop env (traversePagesNodeMap fuel env) kids s =
        some (.ok (s + (kids.map c).sum)) := by
  intro kids
  induction kids with
  | nil => intro s _; simp [kidsSumLoop]
  | cons k rest ih =>
    intro s h
    have hk := h k (List.mem_cons_self k rest)
    have hrest : ∀ x ∈ rest,
        traversePagesNodeMap fuel env x = some (.ok (c x)) :=
      fun x hx => h x (List.mem_cons_of_mem k hx)
    cases fuel with
    | zero => exact absurd hk (by simp [traversePagesNodeMap])
    | succ f =>
      cases henv : env.objOffsets k.obj with
      | none =>
        have hkv : traversePagesNodeMap (f + 1) env k = some (.error ()) := by
          simp [traversePagesNodeMap, henv]
        rw [hkv] at hk
        exact absurd hk (by simp)
      | some ce =>
        cases hd : env.readObjDictAt ce.offset with
        | error e =>
          have hkv : traversePagesNodeMap (f + 1) env k = some (.error e) := by
            simp [traversePagesNodeMap, henv, hd]
          rw [hkv] at hk
          exact absurd hk (by simp)
        | ok cdict =>
          cases hp : testTypePage cdict with
          | true =>
            have hck : c k = 1 := by
              have hkv : traversePagesNodeMap (f + 1) env k =
                  some (.ok 1) := by
                simp [traversePagesNodeMap, henv, hd, hp]
              rw [hkv] at hk
              simpa using hk.symm
            have hstep : kidsSumLoop env (traversePagesNodeMap (f + 1) env)
                  (k :: rest) s =
                kidsSumLoop env (traversePagesNodeMap (f + 1) env)
                  rest (s + 1) := by
              simp [kidsSumLoop, henv, hd, hp]
            rw [hstep, ih (s + 1) hrest]
            have harith : s + 1 + (rest.map c).sum =
                s + ((k :: rest).map c).sum := by
              simp only [List.map_cons, List.sum_cons, hck]; omega
            rw [harith]
          | false =>
            cases hps : testTypePages cdict with
            | true =>
              have hstep : kidsSumLoop env (traversePagesNodeMap (f + 1) env)
                    (k :: rest) s =
                  kidsSumLoop env (traversePagesNodeMap (f + 1) env)
                    rest (s + c k) := by
                simp [kidsSumLoop, henv, hd, hp, hps, hk]
              rw [hstep, ih (s + c k) hrest]
              have harith : s + c k + (rest.map c).sum =
                  s + ((k :: rest).map c).sum := by
                simp only [List.map_cons, List.sum_cons]; omega
              rw [harith]
            | false =>
              have hck : c k = 0 := by
                have hkv : traversePagesNodeMap (f + 1) env k =
                    some (.ok 0) := by
                  simp [traversePagesNodeMap, henv, hd, hp, hps]
                rw [hkv] at hk
                simpa using hk.symm
              have hstep : kidsSumLoop env (traversePagesNodeMap (f + 1) env)
                    (k :: rest) s =
                  kidsSumLoop env (traversePagesNodeMap (f + 1) env)
                    rest s := by
                simp [kidsSumLoop, henv, hd, hp, hps]
              rw [hstep, ih s hrest]
              have harith : s + (rest.map c).sum =
                  s + ((k :: rest).map c).sum := by
                simp only [List.map_cons, List.sum_cons, hck]; omega
              rw [harith]

/-- C3 counterexample: in `envCountFallback`, the root node (object 1) is a
`/Type /Pages` node whose `/Kids` array exists and holds exactly object 2;
the recursive page count of that only kid is 0, so the claimed "recursive
sum of its kids' page counts" is 0 — but the traversal returns the node's
`/Count` value 7, because the source's final line
`return sum || (cnt > 0 ? cnt : 0)` replaces a zero sum by `/Count`. -/
theorem c3_counterexample_zero_sum_falls_back_to_count :
    parseKidsArray dictPagesCount7 = [⟨2, 0⟩] ∧
    traversePagesNodeMap 2 envCountFallback ⟨2, 0⟩ = some (.ok 0) ∧
    traversePagesNodeMap 3 envCountFallback ⟨1, 0⟩ = some (.ok 7) ∧
    (7 : Nat) ≠ 0 := by
  refine ⟨by decide, by decide, by decide, by decide⟩

/-- C3 amended: per node visited by the traversal — a `/Type /Page` node
yields 1; a node that is neither `/Page` nor `/Pages` yields 0; a
`/Type /Pages` node whose kids cannot be resolved (empty resolution)
yields its `/Count` when that is a positive integer and 0 otherwise; and a
`/Type /Pages` node with kids yields the recursive sum of its kids' page
counts when that sum is non-zero, and otherwise falls back to `/Count`
when positive (else 0). -/
theorem c3_traversal_node_semantics_amended (fuel : Nat) (env : MapEnv)
    (r : ObjRef) (entry : XEntry) (dict : List Char)
    (h1 : env.objOffsets r.obj = some entry)
    (h2 : env.readObjDictAt entry.offset = .ok dict) :
    (testTypePage dict = true →
      traversePagesNodeMap (fuel + 1) env r = some (.ok 1)) ∧
    (testTypePage dict = false → testTypePages dict = false →
      traversePagesNodeMap (fuel + 1) env r = some (.ok 0)) ∧
    (testTypePage dict = false → testTypePages dict = true →
      resolveKidsMap env dict = .ok [] →
      traversePagesNodeMap (fuel + 1) env r =
        some (.ok (countOrZero (parseIntFromDict dict "Count".toList)))) ∧
    (∀ (kids : List ObjRef) (c : ObjRef → Nat),
      testTypePage dict = false → testTypePages dict = true →
      resolveKidsMap env dict = .ok kids → kids ≠ [] →
      (∀ k ∈ kids, traversePagesNodeMap fuel env k = some (.ok (c k))) →
      traversePagesNodeMap (fuel + 1) env r =
        some (.ok (if (kids.map c).sum = 0
          then countOrZero (parseIntFromDict dict "Count".toList)
          else (kids.map c).sum))) := by
  refine ⟨?_, ?_, ?_, ?_⟩
  · intro hp
    simp [traversePagesNodeMap, h1, h2, hp]
  · intro hp hps
    simp [traversePagesNodeMap, h1, h2, hp, hps]
  · intro hp hps hk
    simp [traversePagesNodeMap, h1, h2, hp, hps, hk]
  · intro kids c hp hps hk hne hall
    have hni : kids.isEmpty = false := by
      cases kids with
      | nil => exact absurd rfl hne
      | cons a t => rfl
    simp [traversePagesNodeMap, h1, h2, hp, hps, hk, hni,
      kidsSumLoop_eq_sum fuel env c kids 0 hall]

/-- Witness for the amended C3 at `envCountFallback`: the root `/Pages`
node's kids resolve to the single childless `/Pages` object 2 with
recursive count 0, and the traversal returns the `/Count` fallback 7. -/
theorem c3_traversal_node_semantics_amended_witness :
    traversePagesNodeMap 3 envCountFallback ⟨1, 0⟩ = some (.ok 7) := by
  have h := (c3_traversal_node_semantics_amended 2 envCountFallback
    ⟨1, 0⟩ ⟨10, 0⟩ dictPagesCount7 rfl rfl).2.2.2
    [⟨2, 0⟩] (fun _ => 0) (by decide) (by decide) (by decide)
    (by decide) (by decide)
  simpa using h

/-- The kid loop yields a value whenever every kid the loop recurses into
(resolvable, not `/Page`, `/Pages`) has a converged traversal. -/
theorem kidsSumLoop_isSome (env : MapEnv)
    (rec : ObjRef → Option (Except Unit Nat)) :
    ∀ (kids : List ObjRef) (s : Nat),
      (∀ k ∈ kids, ∀ ce cdict, env.objOffsets k.obj = some ce →
        env.readObjDictAt ce.offset = .ok cdict →
        testTypePage cdict = false → testTypePages cdict = true →
        (rec k).isSome) →
      (kidsSumLoop env rec kids s).isSome := by
  intro kids
  induction kids with
  | nil => intro s _; simp [kidsSumLoop]
  | cons k rest ih =>
    intro s h
    have hrest := fun x hx => h x (List.mem_cons_of_mem k hx)
    cases henv : env.objOffsets k.obj with
    | none =>
      have hstep : kidsSumLoop env rec (k :: rest) s =
          kidsSumLoop env rec rest s := by
        simp [kidsSumLoop, henv]
      rw [hstep]
      exact ih s hrest
    | some ce =>
      cases hd : env.readObjDictAt ce.offset with
      | error e =>
        have hstep : kidsSumLoop env rec (k :: rest) s = some (.error e) := by
          simp [kidsSumLoop, henv, hd]
        rw [hstep]
        simp
      | ok cdict =>
        cases hp : testTypePage cdict with
        | true =>
          have hstep : kidsSumLoop env rec (k :: rest) s =
              kidsSumLoop env rec rest (s + 1) := by
            simp [kidsSumLoop, henv, hd, hp]
          rw [hstep]
          exact ih (s + 1) hrest
        | false =>
          cases hps : testTypePages cdict with
          | false =>
            have hstep : kidsSumLoop env rec (k :: rest) s =
                kidsSumLoop env rec rest s := by
              simp [kidsSumLoop, henv, hd, hp, hps]
            rw [hstep]
            exact ih s hrest
          | true =>
            have hs := h k (List.mem_cons_self k rest) ce cdict henv hd hp hps
            rcases hrec : rec k with _ | x
            · rw [hrec] at hs; simp at hs
            · rcases x with e | cc
              · have hstep : kidsSumLoop env rec (k :: rest) s =
                    some (.error e) := by
                  simp [kidsSumLoop, henv, hd, hp, hps, hrec]
                rw [hstep]
                simp
              · have hstep : kidsSumLoop env rec (k :: rest) s =
                    kidsSumLoop env rec rest (s + cc) := by
                  simp [kidsSumLoop, henv, hd, hp, hps, hrec]
                rw [hstep]
                exact ih (s + cc) hrest

/-- With a rank function decreasing along recursion edges, the traversal
converges at any fuel exceeding the start node's rank. -/
theorem traverse_total_of_ranked (env : MapEnv) (rank : ObjRef → Nat)
    (hr : ∀ r k, RecEdge env r k → rank k < rank r) :
    ∀ fuel r, rank r < fuel → (traversePagesNodeMap fuel env r).isSome := by
  intro fuel
  induction fuel with
  | zero => intro r h; omega
  | succ f ih =>
    intro r hrank
    cases henv : env.objOffsets r.obj with
    | none =>
      have hv : traversePagesNodeMap (f + 1) env r = some (.error ()) := by
        simp [traversePagesNodeMap, henv]
      rw [hv]; simp
    | some entry =>
      cases hd : env.readObjDictAt entry.offset with
      | error e =>
        have hv : traversePagesNodeMap (f + 1) env r = some (.error e) := by
          simp [traversePagesNodeMap, henv, hd]
        rw [hv]; simp
      | ok dict =>
        cases hp : testTypePage dict with
        | true =>
          have hv : traversePagesNodeMap (f + 1) env r = some (.ok 1) := by
            simp [traversePagesNodeMap, henv, hd, hp]
          rw [hv]; simp
        | false =>
          cases hps : testTypePages dict with
          | false =>
            have hv : traversePagesNodeMap (f + 1) env r = some (.ok 0) := by
              simp [traversePagesNodeMap, henv, hd, hp, hps]
            rw [hv]; simp
          | true =>
            cases hkids : resolveKidsMap env dict with
            | error e =>
              have hv : traversePagesNodeMap (f + 1) env r =
                  some (.error e) := by
                simp [traversePagesNodeMap, henv, hd, hp, hps, hkids]
              rw [hv]; simp
            | ok kids =>
              cases hni : kids.isEmpty with
              | true =>
                have hv : traversePagesNodeMap (f + 1) env r = some (.ok
                    (countOrZero (parseIntFromDict dict "Count".toList))) := by
                  simp [traversePagesNodeMap, henv, hd, hp, hps, hkids, hni]
                rw [hv]; simp
              | false =>
                have hloop : (kidsSumLoop env (traversePagesNodeMap f env)
                    kids 0).isSome := by
                  apply kidsSumLoop_isSome
                  intro k hk ce cdict hce hcd hcp hcps
                  apply ih
                  have hedge : RecEdge env r k :=
                    ⟨entry, dict, kids, ce, cdict, henv, hd, hp, hps,
                     hkids, hk, hce, hcd, hcp, hcps⟩
                  have := hr r k hedge
                  omega
                rcases hl : kidsSumLoop env (traversePagesNodeMap f env)
                    kids 0 with _ | x
                · rw [hl] at hloop; simp at hloop
                · rcases x with e | s
                  · have hv : traversePagesNodeMap (f + 1) env r =
                        some (.error e) := by
                      simp [traversePagesNodeMap, henv, hd, hp, hps,
                        hkids, hni, hl]
                    rw [hv]; simp
                  · have hv : traversePagesNodeMap (f + 1) env r =
                        some (.ok (if s = 0 then countOrZero
                          (parseIntFromDict dict "Count".toList) else s)) := by
                      simp [traversePagesNodeMap, henv, hd, hp, hps,
                        hkids, hni, hl]
                    rw [hv]; simp

/-- The traversal never converges on the cyclic environment, at any fuel. -/
theorem traverse_cycle_diverges :
    ∀ fuel, traversePagesNodeMap fuel envKidCycle ⟨1, 0⟩ = none := by
  intro fuel
  induction fuel with
  | zero => rfl
  | succ f ih =>
    rw [show traversePagesNodeMap (f + 1) envKidCycle ⟨1, 0⟩ =
        (match kidsSumLoop envKidCycle
            (traversePagesNodeMap f envKidCycle) [⟨1, 0⟩] 0 with
         | none => none
         | some (.error e) => some (.error e)
         | some (.ok s) => some (.ok (if s = 0 then 0 else s))) from rfl,
      show kidsSumLoop envKidCycle
          (traversePagesNodeMap f envKidCycle) [⟨1, 0⟩] 0 =
        (match traversePagesNodeMap f envKidCycle ⟨1, 0⟩ with
         | none => none
         | some (.error e) => some (.error e)
         | some (.ok c) => some (.ok (0 + c))) from rfl,
      ih]

/-- C9: the recursive page-tree traversal has no cycle detection and no
depth limit.  On the concrete cyclic kid graph `envKidCycle` the traversal
fails to converge at every recursion depth (the JavaScript original would
recurse forever), while on any environment whose recursion edges admit a
decreasing rank (an acyclic reachable kid relation) the traversal converges
once the fuel exceeds the start node's rank — so acyclicity is exactly the
precondition for the traversal to be total. -/
theorem c9_traversal_terminates_iff_acyclic :
    (∀ fuel, traversePagesNodeMap fuel envKidCycle ⟨1, 0⟩ = none) ∧
    (∀ (env : MapEnv) (rank : ObjRef → Nat),
      (∀ r k, RecEdge env r k → rank k < rank r) →
      ∀ fuel r, rank r < fuel →
        (traversePagesNodeMap fuel env r).isSome) :=
  ⟨traverse_cycle_diverges, traverse_total_of_ranked⟩

/-- Witness for C9: the cyclic environment diverges at fuel 5, and on the
single-`/Page`-leaf environment (no recursion edges at all) the constant
rank 0 witnesses convergence at fuel 1. -/
theorem c9_traversal_terminates_iff_acyclic_witness :
    traversePagesNodeMap 5 envKidCycle ⟨1, 0⟩ = none ∧
    (traversePagesNodeMap 1 envPageLeaf ⟨1, 0⟩).isSome := by
  constructor
  · exact c9_traversal_terminates_iff_acyclic.1 5
  · refine c9_traversal_terminates_iff_acyclic.2 envPageLeaf
      (fun _ => 0) ?_ 1 ⟨1, 0⟩ (by decide)
    intro r k h
    rcases h with ⟨entry, dict, kids, ce, cdict, _, h2, h3, _⟩
    revert h2
    show (if entry.offset = 10 then Except.ok dictPageLeaf
      else Except.error ()) = Except.ok dict → _
    split
    · intro h2
      injection h2 with h2
      subst h2
      exact absurd h3 (by decide)
    · intro h2
      exact absurd h2 (by simp)

/-- Appending assignment lists reads later-wins (direct side). -/
theorem assignsOffset_append (l1 l2 : List XrefAssign) (q : Int) :
    assignsOffset (l1 ++ l2) q =
      match assignsOffset l2 q with
      | some v => some v
      | none => assignsOffset l1 q := by
  induction l1 with
  | nil =>
    simp only [List.nil_append]
    rcases h : assignsOffset l2 q with _ | v <;> simp [assignsOffset]
  | cons a l ih =>
    show (match assignsOffset (l ++ l2) q with
      | some v => some v
      | none =>
        match a with
        | .direct o f2 f3 => if q = o then some ⟨f2, f3⟩ else none
        | .compressed _ _ _ => none) = _
    rw [ih]
    rcases h : assignsOffset l2 q with _ | v <;>
      rcases h1 : assignsOffset l q with _ | v1 <;>
      simp [assignsOffset, h1]

/-- Appending assignment lists reads later-wins (compressed side). -/
theorem assignsObjStm_append (l1 l2 : List XrefAssign) (q : Int) :
    assignsObjStm (l1 ++ l2) q =
      match assignsObjStm l2 q with
      | some v => some v
      | none => assignsObjStm l1 q := by
  induction l1 with
  | nil =>
    simp only [List.nil_append]
    rcases h : assignsObjStm l2 q with _ | v <;> simp [assignsObjStm]
  | cons a l ih =>
    show (match assignsObjStm (l ++ l2) q with
      | some v => some v
      | none =>
        match a with
        | .compressed o f2 f3 => if q = o then some (f2, f3) else none
        | .direct _ _ _ => none) = _
    rw [ih]
    rcases h : assignsObjStm l2 q with _ | v <;>
      rcases h1 : assignsObjStm l q with _ | v1 <;>
      simp [assignsObjStm, h1]

/-- Peeling the first entry off a subsection's specification: entry 0 sits
at `p`, the remaining entries form the subsection of the next object
number starting `w0+w1+w2` bytes later. -/
theorem specSubsectionEntries_succ (w0 w1 w2 : Nat) (data : List Nat)
    (objStart : Int) (rem : Nat) (p : Nat) :
    specSubsectionEntries w0 w1 w2 data objStart (rem + 1) p =
      (let type := readUIntBE data p w0
       let f2 := readUIntBE data (p + w0) w1
       let f3 := readUIntBE data (p + w0 + w1) w2
       let t := if w0 = 0 then 1 else type
       if t = 1 then [XrefAssign.direct objStart f2 f3]
       else if t = 2 then [XrefAssign.compressed objStart f2 f3]
       else []) ++
      specSubsectionEntries w0 w1 w2 data (objStart + 1) rem
        (p + (w0 + w1 + w2)) := by
  unfold specSubsectionEntries
  rw [List.range_succ_eq_map, List.filterMap_cons, List.filterMap_map]
  have hfun :
      ((fun j : Nat =>
        let base := p + j * (w0 + w1 + w2)
        let type := readUIntBE data base w0
        let f2 := readUIntBE data (base + w0) w1
        let f3 := readUIntBE data (base + w0 + w1) w2
        let t := if w0 = 0 then 1 else type
        if t = 1 then some (XrefAssign.direct (objStart + j) f2 f3)
        else if t = 2 then some (XrefAssign.compressed (objStart + j) f2 f3)
        else none) ∘ Nat.succ) =
      (fun j : Nat =>
        let base := p + (w0 + w1 + w2) + j * (w0 + w1 + w2)
        let type := readUIntBE data base w0
        let f2 := readUIntBE data (base + w0) w1
        let f3 := readUIntBE data (base + w0 + w1) w2
        let t := if w0 = 0 then 1 else type
        if t = 1 then some (XrefAssign.direct (objStart + 1 + j) f2 f3)
        else if t = 2 then
          some (XrefAssign.compressed (objStart + 1 + j) f2 f3)
        else none) := by
    funext j
    have h1 : p + Nat.succ j * (w0 + w1 + w2) =
        p + (w0 + w1 + w2) + j * (w0 + w1 + w2) := by
      simp only [Nat.succ_eq_add_one]
      ring
    have h2 : objStart + (Nat.succ j : Int) = objStart + 1 + (j : Int) := by
      push_cast
      ring
    simp only [Function.comp, h1, h2]
  rw [hfun]
  have hzero : p + 0 * (w0 + w1 + w2) = p := by ring
  have hcast : objStart + ((0 : Nat) : Int) = objStart := by push_cast; ring
  simp only [hzero, hcast]
  by_cases h1 : (if w0 = 0 then 1 else readUIntBE data p w0) = 1
  · simp [h1]
  · by_cases h2 : (if w0 = 0 then 1 else readUIntBE data p w0) = 2 <;>
      simp [h1, h2]

/-- The entry loop of the decoder refines the specification of one
subsection: it advances the byte position by `rem * (w0+w1+w2)` and its
maps read as the subsection's assignments over the incoming maps. -/
theorem decodeEntriesLoop_spec (w0 w1 w2 : Nat) (data : List Nat) :
    ∀ (rem : Nat) (objStart : Int) (j : Nat) (p : Nat) (acc : XrefMaps),
      (decodeEntriesLoop w0 w1 w2 data objStart rem j p acc).1 =
        p + rem * (w0 + w1 + w2) ∧
      (∀ q, (decodeEntriesLoop w0 w1 w2 data objStart
          rem j p acc).2.objToOffset q =
        match assignsOffset (specSubsectionEntries w0 w1 w2 data
            (objStart + j) rem p) q with
        | some v => some v
        | none => acc.objToOffset q) ∧
      (∀ q, (decodeEntriesLoop w0 w1 w2 data objStart
          rem j p acc).2.objToObjStm q =
        match assignsObjStm (specSubsectionEntries w0 w1 w2 data
            (objStart + j) rem p) q with
        | some v => some v
        | none => acc.objToObjStm q) := by
  intro rem
  induction rem with
  | zero =>
    intro objStart j p acc
    refine ⟨by simp [decodeEntriesLoop], ?_, ?_⟩ <;>
      intro q <;> simp [decodeEntriesLoop, specSubsectionEntries,
        assignsOffset, assignsObjStm]
  | succ rem ih =>
    intro objStart j p acc
    have hspec := specSubsectionEntries_succ w0 w1 w2 data (objStart + j)
      rem p
    have hcast : objStart + (j : Int) + 1 =
        objStart + ((j + 1 : Nat) : Int) := by
      push_cast; ring
    rw [hcast] at hspec
    have hpadd : p + w0 + w1 + w2 = p + (w0 + w1 + w2) := by ring
    by_cases h1 : (if w0 = 0 then 1 else readUIntBE data p w0) = 1
    · simp only [h1, reduceIte] at hspec
      have hstep : decodeEntriesLoop w0 w1 w2 data objStart (rem + 1)
          j p acc =
          decodeEntriesLoop w0 w1 w2 data objStart rem (j + 1)
            (p + w0 + w1 + w2)
            { acc with objToOffset := mapSet acc.objToOffset (objStart + (j : Int)) ⟨readUIntBE data (p + w0) w1, readUIntBE data (p + w0 + w1) w2⟩ } := by
        simp [decodeEntriesLoop, h1]
      obtain ⟨ihp, ihoff, ihstm⟩ := ih objStart (j + 1) (p + w0 + w1 + w2)
        { acc with objToOffset := mapSet acc.objToOffset (objStart + (j : Int)) ⟨readUIntBE data (p + w0) w1, readUIntBE data (p + w0 + w1) w2⟩ }
      refine ⟨?_, ?_, ?_⟩
      · rw [hstep, ihp]; ring
      · intro q
        rw [hstep, ihoff q, hpadd, hspec, assignsOffset_append]
        rcases ht : assignsOffset (specSubsectionEntries w0 w1 w2 data
            (objStart + ((j + 1 : Nat) : Int)) rem
            (p + (w0 + w1 + w2))) q with _ | v
        · by_cases hq : q = objStart + (j : Int) <;>
            simp [ht, mapSet, assignsOffset, hq]
        · simp [ht]
      · intro q
        rw [hstep, ihstm q, hpadd, hspec, assignsObjStm_append]
        rcases ht : assignsObjStm (specSubsectionEntries w0 w1 w2 data
            (objStart + ((j + 1 : Nat) : Int)) rem
            (p + (w0 + w1 + w2))) q with _ | v <;>
          simp [ht, assignsObjStm]
    · by_cases h2 : (if w0 = 0 then 1 else readUIntBE data p w0) = 2
      · simp only [h1, h2, reduceIte] at hspec
        have hstep : decodeEntriesLoop w0 w1 w2 data objStart (rem + 1)
            j p acc =
            decodeEntriesLoop w0 w1 w2 data objStart rem (j + 1)
              (p + w0 + w1 + w2)
              { acc with objToObjStm := mapSet acc.objToObjStm (objStart + (j : Int)) (readUIntBE data (p + w0) w1, readUIntBE data (p + w0 + w1) w2) } := by
          simp [decodeEntriesLoop, h1, h2]
        obtain ⟨ihp, ihoff, ihstm⟩ := ih objStart (j + 1) (p + w0 + w1 + w2)
          { acc with objToObjStm := mapSet acc.objToObjStm (objStart + (j : Int)) (readUIntBE data (p + w0) w1, readUIntBE data (p + w0 + w1) w2) }
        refine ⟨?_, ?_, ?_⟩
        · rw [hstep, ihp]; ring
        · intro q
          rw [hstep, ihoff q, hpadd, hspec, assignsOffset_append]
          rcases ht : assignsOffset (specSubsectionEntries w0 w1 w2 data
              (objStart + ((j + 1 : Nat) : Int)) rem
              (p + (w0 + w1 + w2))) q with _ | v <;>
            simp [ht, assignsOffset]
        · intro q
          rw [hstep, ihstm q, hpadd, hspec, assignsObjStm_append]
          rcases ht : assignsObjStm (specSubsectionEntries w0 w1 w2 data
              (objStart + ((j + 1 : Nat) : Int)) rem
              (p + (w0 + w1 + w2))) q with _ | v
          · by_cases hq : q = objStart + (j : Int) <;>
              simp [ht, mapSet, assignsObjStm, hq]
          · simp [ht]
      · simp only [h1, h2, reduceIte] at hspec
        have hstep : decodeEntriesLoop w0 w1 w2 data objStart (rem + 1)
            j p acc =
            decodeEntriesLoop w0 w1 w2 data objStart rem (j + 1)
              (p + w0 + w1 + w2) acc := by
          simp [decodeEntriesLoop, h1, h2]
        obtain ⟨ihp, ihoff, ihstm⟩ := ih objStart (j + 1)
          (p + w0 + w1 + w2) acc
        refine ⟨?_, ?_, ?_⟩
        · rw [hstep, ihp]; ring
        · intro q
          rw [hstep, ihoff q, hpadd, hspec, assignsOffset_append]
          rcases ht : assignsOffset (specSubsectionEntries w0 w1 w2 data
              (objStart + ((j + 1 : Nat) : Int)) rem
              (p + (w0 + w1 + w2))) q with _ | v <;>
            simp [ht, assignsOffset]
        · intro q
          rw [hstep, ihstm q, hpadd, hspec, assignsObjStm_append]
          rcases ht : assignsObjStm (specSubsectionEntries w0 w1 w2 data
              (objStart + ((j + 1 : Nat) : Int)) rem
              (p + (w0 + w1 + w2))) q with _ | v <;>
            simp [ht, assignsObjStm]

/-- The subsection loop of the decoder refines the flat specification of
all `/Index` subsections, over the incoming maps. -/
theorem decodeXrefSubsections_spec (w0 w1 w2 : Nat) (data : List Nat) :
    (index : List Int) → (p : Nat) → (acc : XrefMaps) →
      (∀ q, (decodeXrefSubsections w0 w1 w2 data index p acc).objToOffset q =
        match assignsOffset (specXrefAssigns w0 w1 w2 data index p) q with
        | some v => some v
        | none => acc.objToOffset q) ∧
      (∀ q, (decodeXrefSubsections w0 w1 w2 data index p acc).objToObjStm q =
        match assignsObjStm (specXrefAssigns w0 w1 w2 data index p) q with
        | some v => some v
        | none => acc.objToObjStm q)
  | [], p, acc => by
    constructor <;> intro q <;>
      simp [decodeXrefSubsections, specXrefAssigns, assignsOffset,
        assignsObjStm]
  | [x], p, acc => by
    constructor <;> intro q <;>
      simp [decodeXrefSubsections, specXrefAssigns, assignsOffset,
        assignsObjStm]
  | objStart :: count :: rest, p, acc => by
    obtain ⟨hp, hoff, hstm⟩ :=
      decodeEntriesLoop_spec w0 w1 w2 data count.toNat objStart 0 p acc
    have hcast : objStart + ((0 : Nat) : Int) = objStart := by
      push_cast; ring
    rw [hcast] at hoff hstm
    obtain ⟨ihoff, ihstm⟩ := decodeXrefSubsections_spec w0 w1 w2 data rest
      (p + count.toNat * (w0 + w1 + w2))
      (decodeEntriesLoop w0 w1 w2 data objStart count.toNat 0 p acc).2
    have hstep : decodeXrefSubsections w0 w1 w2 data
        (objStart :: count :: rest) p acc =
        decodeXrefSubsections w0 w1 w2 data rest
          (decodeEntriesLoop w0 w1 w2 data objStart count.toNat 0 p acc).1
          (decodeEntriesLoop w0 w1 w2 data objStart count.toNat 0 p acc).2 :=
      rfl
    constructor <;> intro q
    · rw [hstep, hp, ihoff q]
      show _ = match assignsOffset (specSubsectionEntries w0 w1 w2 data
          objStart count.toNat p ++ specXrefAssigns w0 w1 w2 data rest
          (p + count.toNat * (w0 + w1 + w2))) q with
        | some v => some v
        | none => acc.objToOffset q
      rw [assignsOffset_append]
      rcases h2 : assignsOffset (specXrefAssigns w0 w1 w2 data rest
          (p + count.toNat * (w0 + w1 + w2))) q with _ | v
      · rw [hoff q]
      · rfl
    · rw [hstep, hp, ihstm q]
      show _ = match assignsObjStm (specSubsectionEntries w0 w1 w2 data
          objStart count.toNat p ++ specXrefAssigns w0 w1 w2 data rest
          (p + count.toNat * (w0 + w1 + w2))) q with
        | some v => some v
        | none => acc.objToObjStm q
      rw [assignsObjStm_append]
      rcases h2 : assignsObjStm (specXrefAssigns w0 w1 w2 data rest
          (p + count.toNat * (w0 + w1 + w2))) q with _ | v
      · rw [hstm q]
      · rfl

/-- Bytes of a byte list read through `getD` stay below 256. -/
theorem getD_lt_256 (data : List Nat) (hb : ∀ b ∈ data, b < 256) (i : Nat) :
    data.getD i 0 < 256 := by
  rcases h : data.get? i with _ | x
  · simp [List.getD_eq_getElem?_getD, ← List.get?_eq_getElem?, h]
  · have hm : x ∈ data := List.get?_mem h
    have : data.getD i 0 = x := by
      simp [List.getD_eq_getElem?_getD, ← List.get?_eq_getElem?, h]
    rw [this]
    exact hb x hm

/-- For field widths up to 4 (on genuine bytes) the 32-bit-truncating fold
of `readUIntBE` is exactly the big-endian value. -/
theorem readUIntBE_eq_beVal (data : List Nat) (pos len : Nat)
    (hb : ∀ b ∈ data, b < 256) (hlen : len ≤ 4) :
    readUIntBE data pos len = beVal data pos len := by
  have h0 := getD_lt_256 data hb (pos + 0)
  have h1 := getD_lt_256 data hb (pos + 1)
  have h2 := getD_lt_256 data hb (pos + 2)
  have h3 := getD_lt_256 data hb (pos + 3)
  have e0 : data.getD (pos + 0) 0 = data[pos]?.getD 0 := by
    simp [List.getD_eq_getElem?_getD]
  have e1 : data.getD (pos + 1) 0 = data[pos + 1]?.getD 0 := by
    simp [List.getD_eq_getElem?_getD]
  have e2 : data.getD (pos + 2) 0 = data[pos + 2]?.getD 0 := by
    simp [List.getD_eq_getElem?_getD]
  have e3 : data.getD (pos + 3) 0 = data[pos + 3]?.getD 0 := by
    simp [List.getD_eq_getElem?_getD]
  interval_cases len <;>
    simp only [readUIntBE, beVal, List.range_succ, List.range_zero,
      List.foldl_append, List.foldl_cons, List.foldl_nil,
      List.foldr_append, List.foldr_cons, List.foldr_nil] <;>
    norm_num <;> omega

/-- C5: decoding a cross-reference stream consumes entries in `/Index`
subsection order at `w0+w1+w2` bytes per entry, decodes the three fields
as big-endian unsigned integers `(type, f2, f3)` with the type defaulting
to 1 when `w0 = 0`, ignores type-0 entries, records type-1 entries as
`objNum ↦ {offset: f2, gen: f3}` and type-2 entries as
`objNum ↦ {objstm: f2, index: f3}` (later entries overwriting earlier
ones, as `Map.set` does), and a missing `/Index` defaults to `[0, Size]`. -/
theorem c5_xref_stream_entry_decoding :
    (∀ (w0 w1 w2 : Nat) (data : List Nat) (index : List Int) (q : Int),
      (decodeXrefSubsections w0 w1 w2 data index 0
          emptyXrefMaps).objToOffset q =
        assignsOffset (specXrefAssigns w0 w1 w2 data index 0) q ∧
      (decodeXrefSubsections w0 w1 w2 data index 0
          emptyXrefMaps).objToObjStm q =
        assignsObjStm (specXrefAssigns w0 w1 w2 data index 0) q) ∧
    (∀ (dict : List Char) (size : Nat), findPat matchIndexAt dict = none →
      readIndexArray dict size = [0, (size : Int)]) ∧
    (∀ (data : List Nat) (pos len : Nat), (∀ b ∈ data, b < 256) →
      len ≤ 4 → readUIntBE data pos len = beVal data pos len) ∧
    (∀ (inflate : List Nat → Option (List Nat)) (dict : List Char)
        (sb : List Nat) (size w0 w1 w2 : Nat),
      hasSubstr dict "FlateDecode".toList = false →
      readSize dict = .ok size →
      readWArray dict = .ok (w0, w1, w2) →
      buildXrefMapFromXrefStream inflate ⟨dict, sb⟩ =
        .ok (decodeXrefSubsections w0 w1 w2 sb (readIndexArray dict size) 0
          emptyXrefMaps)) := by
  refine ⟨?_, ?_, ?_, ?_⟩
  · intro w0 w1 w2 data index q
    obtain ⟨hoff, hstm⟩ := decodeXrefSubsections_spec w0 w1 w2 data index 0
      emptyXrefMaps
    constructor
    · rw [hoff q]
      rcases h : assignsOffset (specXrefAssigns w0 w1 w2 data index 0) q
        with _ | v <;> simp [emptyXrefMaps]
    · rw [hstm q]
      rcases h : assignsObjStm (specXrefAssigns w0 w1 w2 data index 0) q
        with _ | v <;> simp [emptyXrefMaps]
  · intro dict size h
    simp [readIndexArray, h]
  · exact readUIntBE_eq_beVal
  · intro inflate dict sb size w0 w1 w2 hf hs hw
    simp only [buildXrefMapFromXrefStream, hs, hw]
    rw [hf]
    simp

/-- Witness for C5 at a concrete two-entry stream with `/W [1 1 1]`, one
free (type-0) and one direct (type-1) entry, plus the `/Index` default and
big-endian readings. -/
theorem c5_xref_stream_entry_decoding_witness :
    readIndexArray "<</Type /XRef>>".toList 3 = [0, 3] ∧
    readUIntBE [1, 2] 0 2 = beVal [1, 2] 0 2 ∧
    buildXrefMapFromXrefStream (fun _ => none)
      ⟨"<</Type /XRef /Size 2 /W [1 1 1]>>".toList, [0, 9, 9, 1, 0, 5]⟩ =
      .ok (decodeXrefSubsections 1 1 1 [0, 9, 9, 1, 0, 5]
        (readIndexArray "<</Type /XRef /Size 2 /W [1 1 1]>>".toList 2) 0
        emptyXrefMaps) ∧
    (decodeXrefSubsections 1 1 1 [0, 9, 9, 1, 0, 5] [0, 2] 0
        emptyXrefMaps).objToOffset 1 =
      assignsOffset (specXrefAssigns 1 1 1 [0, 9, 9, 1, 0, 5] [0, 2] 0) 1 := by
  refine ⟨?_, ?_, ?_, ?_⟩
  · exact c5_xref_stream_entry_decoding.2.1 "<</Type /XRef>>".toList 3
      (by decide)
  · exact c5_xref_stream_entry_decoding.2.2.1 [1, 2] 0 2 (by decide)
      (by decide)
  · exact c5_xref_stream_entry_decoding.2.2.2 (fun _ => none)
      "<</Type /XRef /Size 2 /W [1 1 1]>>".toList [0, 9, 9, 1, 0, 5]
      2 1 1 1 (by decide) (by decide) (by decide)
  · exact (c5_xref_stream_entry_decoding.1 1 1 1 [0, 9, 9, 1, 0, 5]
      [0, 2] 1).1

/-- C7: the PNG predictor reversal depends only on the row width and the
per-row filter bytes, never on the exact `/Predictor` value — the source
only tests `predictor >= 10` and passes `columns` to `pngPredictorDecode`.
Two xref-stream dictionaries that agree on `/Size`, `/W`, `/Index`,
`FlateDecode` and `/Columns` but carry any two predictor values `≥ 10`
decode the same stream bytes to identical cross-reference maps. -/
theorem c7_predictor_value_immaterial
    (inflate : List Nat → Option (List Nat)) (d1 d2 : List Char)
    (sb : List Nat) (p1 p2 : Nat) (cols : Option Nat)
    (hsize : readSize d1 = readSize d2)
    (hw : readWArray d1 = readWArray d2)
    (hidx : ∀ size, readIndexArray d1 size = readIndexArray d2 size)
    (hf1 : hasSubstr d1 "FlateDecode".toList = true)
    (hf2 : hasSubstr d2 "FlateDecode".toList = true)
    (hdp1 : parseDecodeParms d1 = some ⟨some p1, cols⟩)
    (hdp2 : parseDecodeParms d2 = some ⟨some p2, cols⟩)
    (hp1 : 10 ≤ p1) (hp2 : 10 ≤ p2) :
    buildXrefMapFromXrefStream inflate ⟨d1, sb⟩ =
      buildXrefMapFromXrefStream inflate ⟨d2, sb⟩ := by
  rcases hs : readSize d1 with e | size
  · have hs2 : readSize d2 = .error e := by rw [← hsize, hs]
    simp [buildXrefMapFromXrefStream, hs, hs2]
  · have hs2 : readSize d2 = .ok size := by rw [← hsize, hs]
    rcases hwv : readWArray d1 with e | w3
    · have hw2 : readWArray d2 = .error e := by rw [← hw, hwv]
      simp [buildXrefMapFromXrefStream, hs, hs2, hwv, hw2]
    · obtain ⟨w0, w1, w2⟩ := w3
      have hw2 : readWArray d2 = .ok (w0, w1, w2) := by rw [← hw, hwv]
      simp only [buildXrefMapFromXrefStream, hs, hs2, hwv, hw2,
        hidx size, hdp1, hdp2]
      rw [hf1, hf2]
      rcases hi : inflate sb with _ | infl
      · simp [hi]
      · simp [hi, hp1, hp2]

/-- Witness for C7: a `/Predictor 12` and a `/Predictor 10` dictionary,
identical otherwise, decode the same (already inflated, identity oracle)
bytes to the same maps. -/
theorem c7_predictor_value_immaterial_witness :
    buildXrefMapFromXrefStream (fun bs => some bs)
      ⟨("<</Type /XRef /Size 1 /W [1 1 1] /Filter /FlateDecode " ++
        "/DecodeParms <</Predictor 12 /Columns 3>>>>").toList,
       [0, 1, 0, 5]⟩ =
    buildXrefMapFromXrefStream (fun bs => some bs)
      ⟨("<</Type /XRef /Size 1 /W [1 1 1] /Filter /FlateDecode " ++
        "/DecodeParms <</Predictor 10 /Columns 3>>>>").toList,
       [0, 1, 0, 5]⟩ := by
  refine c7_predictor_value_immaterial (fun bs => some bs) _ _
    [0, 1, 0, 5] 12 10 (some 3) ?_ ?_ ?_ ?_ ?_ ?_ ?_ ?_ ?_
  · decide
  · decide
  · intro size
    have hn1 : findPat matchIndexAt
        ("<</Type /XRef /Size 1 /W [1 1 1] /Filter /FlateDecode " ++
          "/DecodeParms <</Predictor 12 /Columns 3>>>>").toList = none := by
      decide
    have hn2 : findPat matchIndexAt
        ("<</Type /XRef /Size 1 /W [1 1 1] /Filter /FlateDecode " ++
          "/DecodeParms <</Predictor 10 /Columns 3>>>>").toList = none := by
      decide
    simp only [readIndexArray]
    rw [hn1, hn2]
  · decide
  · decide
  · decide
  · decide
  · decide
  · decide

/-- Witness for C6 at concrete strategy outcomes: with the classic `/Count`
fast path returning 2 and the page-object counter returning 5, the
orchestrator returns 5; with the xref-stream `/Count` fast path returning 4
and the counter returning 3, it returns 4. -/
theorem c6_count_guarded_by_page_objects_witness :
    countPdfPagesSync ⟨.error (), .error (), .ok 2, .error (), 0, 0, 5⟩ =
      .ok 5 ∧
    countPdfPagesSync ⟨.error (), .error (), .error (), .ok 4, 0, 0, 3⟩ =
      .ok 4 := by
  constructor
  · exact ((c6_count_guarded_by_page_objects
      ⟨.error (), .error (), .ok 2, .error (), 0, 0, 5⟩ 2 rfl rfl).1
      rfl (by norm_num)).2.1 (by norm_num)
  · exact ((c6_count_guarded_by_page_objects
      ⟨.error (), .error (), .error (), .ok 4, 0, 0, 3⟩ 4 rfl rfl).2
      rfl rfl (by norm_num)).2.2 (by norm_num)

/-- A chain entry never overwrites an existing binding: the `n`-branch
checks `has` first. -/
theorem chainEntryStep_mono (buffer : List Char) (fo : Option Int) (i : Nat)
    (st : (Int → Option XEntry) × Nat) (k : Int) (v : XEntry)
    (h : st.1 k = some v) : (chainEntryStep buffer fo i st).1 k = some v := by
  have hstep : (chainEntryStep buffer fo i st).1 =
      match matchXrefEntryLine (readLineAscii buffer st.2), fo with
      | some (off, gen, flag), some f =>
        if flag = 'n' then
          if (st.1 (f + i)).isSome then st.1
          else mapSet st.1 (f + i) ⟨off, gen⟩
        else st.1
      | _, _ => st.1 := rfl
  rw [hstep]
  cases hm : matchXrefEntryLine (readLineAscii buffer st.2) with
  | none => cases fo <;> exact h
  | some val =>
    obtain ⟨off, gen, flag⟩ := val
    cases fo with
    | none => exact h
    | some f =>
      show (if flag = 'n' then
          if (st.1 (f + i)).isSome then st.1
          else mapSet st.1 (f + i) ⟨off, gen⟩
        else st.1) k = some v
      by_cases hflag : flag = 'n'
      · rw [if_pos hflag]
        by_cases hs : (st.1 (f + i)).isSome
        · rw [if_pos hs]; exact h
        · rw [if_neg hs]
          by_cases hk : k = f + i
          · rw [hk] at h; rw [h] at hs; simp at hs
          · show (if k = f + i then some ⟨off, gen⟩ else st.1 k) = some v
            rw [if_neg hk]; exact h
      · rw [if_neg hflag]; exact h

/-- The entry fold of one subsection never overwrites an existing
binding. -/
theorem entryFold_mono (buffer : List Char) (fo : Option Int) :
    ∀ (l : List Nat) (st : (Int → Option XEntry) × Nat) (k : Int)
      (v : XEntry), st.1 k = some v →
      (l.foldl (fun s i => chainEntryStep buffer fo i s) st).1 k = some v := by
  intro l
  induction l with
  | nil => intro st k v h; exact h
  | cons a l ih =>
    intro st k v h
    exact ih _ k v (chainEntryStep_mono buffer fo a st k v h)

/-- The subsection loop of the classic chain builder never overwrites an
existing binding. -/
theorem chainSubsGo_mono (buffer : List Char) :
    ∀ (fuel : Nat) (m : Int → Option XEntry) (pos : Nat) (k : Int)
      (v : XEntry), m k = some v →
      (chainSubsGo buffer fuel m pos).1 k = some v := by
  intro fuel
  induction fuel with
  | zero => intro m pos k v h; exact h
  | succ fuel ih =>
    intro m pos k v h
    simp only [chainSubsGo]
    by_cases h1 : pos < buffer.length
    · rw [if_pos h1]
      by_cases h2 : peekKeyword buffer pos "trailer".toList = true
      · rw [if_pos h2]; exact h
      · rw [if_neg h2]
        by_cases h3 : readLineAscii buffer pos = []
        · rw [if_pos h3]; exact h
        · rw [if_neg h3]
          by_cases h4 :
              (jsSplitWs (jsTrim (readLineAscii buffer pos))).length < 2
          · rw [if_pos h4]; exact h
          · rw [if_neg h4]
            exact ih _ _ k v (entryFold_mono buffer _ _ _ k v h)
    · rw [if_neg h1]; exact h

/-- The hop loop of the classic chain builder never overwrites an existing
binding: first-seen wins across revisions. -/
theorem classicChainGo_mono (buffer : List Char) :
    ∀ (hopsLeft offset : Nat) (m : Int → Option XEntry) (t : List Char)
      (k : Int) (v : XEntry), m k = some v →
      (classicChainGo buffer hopsLeft offset m t).1 k = some v := by
  intro hopsLeft
  induction hopsLeft with
  | zero => intro offset m t k v h; exact h
  | succ hopsLeft ih =>
    intro offset m t k v h
    simp only [classicChainGo]
    by_cases h1 : 0 < offset
    · rw [if_pos h1]
      by_cases h2 : readAscii buffer offset 4 = "xref".toList
      · rw [if_pos h2]
        set S := chainSubsGo buffer (buffer.length + 1) m
          (skipWhitespace buffer (offset + 4)) with hS
        have hsub : S.1 k = some v := by
          rw [hS]; exact chainSubsGo_mono buffer _ m _ k v h
        by_cases h3 : peekKeyword buffer S.2 "trailer".toList = true
        · rw [if_pos h3]
          set D := (readDictString buffer
            (skipWhitespace buffer (S.2 + 7))).1 with hD
          by_cases h4 : buffer[skipWhitespace buffer (S.2 + 7)]? = some '<' ∧
              buffer[skipWhitespace buffer (S.2 + 7) + 1]? = some '<'
          · rw [if_pos h4]
            cases hp : parseIntFromDict D "Prev".toList with
            | none => exact hsub
            | some prev =>
              show (if 0 < prev ∧ prev < buffer.length then
                  classicChainGo buffer hopsLeft prev S.1
                    (if t = [] then D else t)
                else (S.1, if t = [] then D else t)).1 k = some v
              by_cases h5 : 0 < prev ∧ prev < buffer.length
              · rw [if_pos h5]; exact ih _ _ _ k v hsub
              · rw [if_neg h5]; exact hsub
          · rw [if_neg h4]; exact hsub
        · rw [if_neg h3]; exact hsub
      · rw [if_neg h2]; exact h
    · rw [if_neg h1]; exact h

/-- The first trailer dictionary seen by the classic chain builder is
kept for good: `trailerDictString || dictString`. -/
theorem classicChainGo_trailer (buffer : List Char) :
    ∀ (hopsLeft offset : Nat) (m : Int → Option XEntry) (t : List Char),
      t ≠ [] → (classicChainGo buffer hopsLeft offset m t).2 = t := by
  intro hopsLeft
  induction hopsLeft with
  | zero => intro offset m t ht; rfl
  | succ hopsLeft ih =>
    intro offset m t ht
    simp only [classicChainGo]
    by_cases h1 : 0 < offset
    · rw [if_pos h1]
      by_cases h2 : readAscii buffer offset 4 = "xref".toList
      · rw [if_pos h2]
        set S := chainSubsGo buffer (buffer.length + 1) m
          (skipWhitespace buffer (offset + 4)) with hS
        by_cases h3 : peekKeyword buffer S.2 "trailer".toList = true
        · rw [if_pos h3]
          set D := (readDictString buffer
            (skipWhitespace buffer (S.2 + 7))).1 with hD
          by_cases h4 : buffer[skipWhitespace buffer (S.2 + 7)]? = some '<' ∧
              buffer[skipWhitespace buffer (S.2 + 7) + 1]? = some '<'
          · rw [if_pos h4]
            cases hp : parseIntFromDict D "Prev".toList with
            | none =>
              show (if t = [] then D else t) = t
              rw [if_neg ht]
            | some prev =>
              show (if 0 < prev ∧ prev < buffer.length then
                  classicChainGo buffer hopsLeft prev S.1
                    (if t = [] then D else t)
                else (S.1, if t = [] then D else t)).2 = t
              rw [if_neg ht]
              by_cases h5 : 0 < prev ∧ prev < buffer.length
              · rw [if_pos h5]; exact ih _ _ _ ht
              · rw [if_neg h5]
          · rw [if_neg h4]
        · rw [if_neg h3]
      · rw [if_neg h2]
    · rw [if_neg h1]

/-- The stream-chain hop loop only ever adds bindings that are missing:
whatever `merged` already maps is preserved in the result. -/
theorem streamChainGo_first_seen (inflate : List Nat → Option (List Nat))
    (buffer : List Char) :
    ∀ (hopsLeft : Nat) (merged : XrefMaps) (prevOpt : Option Nat)
      (res : XrefMaps),
      streamChainGo inflate buffer hopsLeft merged prevOpt = .ok res →
      (∀ k v, merged.objToOffset k = some v → res.objToOffset k = some v) ∧
      (∀ k v, merged.objToObjStm k = some v →
        res.objToObjStm k = some v) := by
  intro hopsLeft
  induction hopsLeft with
  | zero =>
    intro merged prevOpt res h
    obtain rfl : merged = res := Except.ok.inj h
    exact ⟨fun k v hv => hv, fun k v hv => hv⟩
  | succ hopsLeft ih =>
    intro merged prevOpt res h
    cases prevOpt with
    | none =>
      obtain rfl : merged = res := Except.ok.inj h
      exact ⟨fun k v hv => hv, fun k v hv => hv⟩
    | some prev =>
      simp only [streamChainGo] at h
      by_cases h1 : 0 < prev ∧ prev < buffer.length
      · rw [if_pos h1] at h
        by_cases h2 : readAscii buffer prev 4 = "xref".toList
        · rw [if_pos h2] at h
          cases hB : buildClassicXrefOffsetsFollowingPrevChain buffer prev with
          | error e =>
            rw [hB] at h
            exact Except.noConfusion
              (show (Except.error e : Except Unit XrefMaps) = .ok res from h)
          | ok r =>
            rw [hB] at h
            obtain rfl : mergeClassicFirstSeen merged r.1 = res :=
              Except.ok.inj h
            refine ⟨fun k v hv => ?_, fun k v hv => hv⟩
            show (match merged.objToOffset k with
              | some w => some w
              | none => r.1 k) = some v
            rw [hv]
        · rw [if_neg h2] at h
          cases hR : readStreamObject buffer prev with
          | error e =>
            rw [hR] at h
            exact Except.noConfusion
              (show (Except.error e : Except Unit XrefMaps) = .ok res from h)
          | ok xo =>
            rw [hR] at h
            have hx : (if testTypeXRef xo.dictString = true then
                match buildXrefMapFromXrefStream inflate xo with
                | Except.error e => Except.error e
                | Except.ok mp =>
                  streamChainGo inflate buffer hopsLeft
                    (mergeMapsFirstSeen merged mp)
                    (parseIntFromDict xo.dictString "Prev".toList)
              else Except.ok merged) = Except.ok res := h
            by_cases h3 : testTypeXRef xo.dictString = true
            · rw [if_pos h3] at hx
              cases hM : buildXrefMapFromXrefStream inflate xo with
              | error e =>
                rw [hM] at hx
                exact Except.noConfusion
                  (show (Except.error e : Except Unit XrefMaps) = .ok res
                    from hx)
              | ok mp =>
                rw [hM] at hx
                obtain ⟨ho, hc⟩ := ih _ _ _ hx
                refine ⟨fun k v hv => ho k v ?_, fun k v hv => hc k v ?_⟩
                · show (match merged.objToOffset k with
                    | some w => some w
                    | none => mp.objToOffset k) = some v
                  rw [hv]
                · show (match merged.objToObjStm k with
                    | some w => some w
                    | none => mp.objToObjStm k) = some v
                  rw [hv]
            · rw [if_neg h3] at hx
              obtain rfl : merged = res := Except.ok.inj hx
              exact ⟨fun k v hv => hv, fun k v hv => hv⟩
      · rw [if_neg h1] at h
        obtain rfl : merged = res := Except.ok.inj h
        exact ⟨fun k v hv => hv, fun k v hv => hv⟩

set_option maxRecDepth 8000 in
/-- C4.  Following the trailer `/Prev` chain never overwrites an object
number already in the map (first-seen wins, in the classic builder and in
the xref-stream chain's merges alike), the trailer dictionary kept is the
first one seen (the latest revision's), and each chain walks at most 10
hops (its hop budget starts at 10 and an exhausted budget stops the
walk), so a cyclic `/Prev` chain still terminates: `demoCycleBuf`'s
trailer points back at its own revision and the build still returns its
map and trailer, and in the two-revision `demoChainBuf` the earlier
revision's binding of object 0 to offset 42 does not overwrite the
latest revision's offset 17 while the earlier revision's fresh binding
of object 1 to offset 99 is added, in both the classic walk and the
stream-chain classic fallback. -/
theorem c4_prev_chain_first_seen_trailer_hop_bound :
    (∀ (buffer : List Char) (hopsLeft offset : Nat)
        (m : Int → Option XEntry) (t : List Char) (k : Int) (v : XEntry),
        m k = some v → (classicChainGo buffer hopsLeft offset m t).1 k =
          some v) ∧
    (∀ (buffer : List Char) (hopsLeft offset : Nat)
        (m : Int → Option XEntry) (t : List Char), t ≠ [] →
        (classicChainGo buffer hopsLeft offset m t).2 = t) ∧
    (∀ (buffer : List Char) (offset : Nat) (m : Int → Option XEntry)
        (t : List Char), classicChainGo buffer 0 offset m t = (m, t)) ∧
    (∀ (inflate : List Nat → Option (List Nat)) (buffer : List Char)
        (hopsLeft : Nat) (merged : XrefMaps) (prevOpt : Option Nat)
        (res : XrefMaps),
        streamChainGo inflate buffer hopsLeft merged prevOpt = .ok res →
        (∀ k v, merged.objToOffset k = some v →
          res.objToOffset k = some v) ∧
        (∀ k v, merged.objToObjStm k = some v →
          res.objToObjStm k = some v)) ∧
    (∀ (inflate : List Nat → Option (List Nat)) (buffer : List Char)
        (merged : XrefMaps) (prevOpt : Option Nat),
        streamChainGo inflate buffer 0 merged prevOpt = .ok merged) ∧
    (buildClassicXrefOffsetsFollowingPrevChain demoChainBuf 69).map
        (fun r => (r.1 0, r.1 1, r.2)) =
      .ok (some ⟨17, 0⟩, some ⟨99, 0⟩, "<</Root 1 0 R /Prev 1>>".toList) ∧
    (buildClassicXrefOffsetsFollowingPrevChain demoCycleBuf 1).map
        (fun r => (r.1 0, r.2)) = .ok (some ⟨17, 0⟩, "<</Prev 1>>".toList) ∧
    (buildXrefMapFromXrefStreamChain (fun _ => none) demoChainBuf
        demoXrefObj).map (fun m => (m.objToOffset 0, m.objToOffset 1)) =
      .ok (some ⟨17, 0⟩, some ⟨99, 0⟩) :=
  ⟨fun buffer hl off m t k v h =>
      classicChainGo_mono buffer hl off m t k v h,
   fun buffer hl off m t h => classicChainGo_trailer buffer hl off m t h,
   fun _ _ _ _ => rfl,
   fun inflate buffer hl merged prevOpt res h =>
     streamChainGo_first_seen inflate buffer hl merged prevOpt res h,
   fun _ _ _ _ => rfl,
   by decide, by decide, by decide⟩

/-- C4 witness: the quantified conjuncts applied at concrete instances. -/
theorem c4_prev_chain_first_seen_trailer_hop_bound_witness :
    (classicChainGo [] 3 0 (mapSet (fun _ => none) 1 ⟨5, 0⟩) ['a']).1 1 =
        some ⟨5, 0⟩ ∧
    (classicChainGo [] 3 0 (fun _ => none) ['a']).2 = ['a'] ∧
    (⟨mapSet (fun _ => none) 0 ⟨3, 4⟩, fun _ => none⟩ :
        XrefMaps).objToOffset 0 = some ⟨3, 4⟩ :=
  ⟨c4_prev_chain_first_seen_trailer_hop_bound.1 [] 3 0 _ ['a'] 1 ⟨5, 0⟩
      (by simp [mapSet]),
   c4_prev_chain_first_seen_trailer_hop_bound.2.1 [] 3 0 _ ['a'] (by simp),
   (c4_prev_chain_first_seen_trailer_hop_bound.2.2.2.1 (fun _ => none) [] 0
      ⟨mapSet (fun _ => none) 0 ⟨3, 4⟩, fun _ => none⟩ none _ rfl).1
     0 ⟨3, 4⟩ (by simp [mapSet])⟩

/-- The take of the takeWhile-length is the takeWhile run itself. -/
theorem take_len_takeWhile (p : Char → Bool) :
    ∀ l : List Char, l.take (l.takeWhile p).length = l.takeWhile p := by
  intro l
  induction l with
  | nil => rfl
  | cons c r ih =>
    cases hc : p c with
    | true => simp [List.takeWhile_cons, hc, ih]
    | false => simp [List.takeWhile_cons, hc]

/-- Splitting a list at its takeWhile run recovers it. -/
theorem takeWhile_append_drop_self (p : Char → Bool) (l : List Char) :
    l.takeWhile p ++ l.drop (l.takeWhile p).length = l := by
  conv_rhs => rw [← List.take_append_drop (l.takeWhile p).length l]
  rw [take_len_takeWhile]

/-- A maximal run: takeWhile over a satisfying run followed by a failing
character is exactly the run. -/
theorem takeWhile_run (p : Char → Bool) (a : List Char) (c : Char)
    (b : List Char) (ha : a.all p = true) (hc : p c = false) :
    (a ++ c :: b).takeWhile p = a := by
  induction a with
  | nil => simp [List.takeWhile_cons, hc]
  | cons x xs ih =>
    simp only [List.all_cons, Bool.and_eq_true] at ha
    simp [List.takeWhile_cons, ha.1, ih ha.2]

/-- A decimal digit is not JavaScript whitespace. -/
theorem digit_not_ws (c : Char) (h : isDigitCh c = true) :
    isJsWs c = false := by
  have h2 : 48 ≤ c.toNat ∧ c.toNat ≤ 57 := by simpa [isDigitCh] using h
  simp only [isJsWs, Bool.or_eq_false_iff, decide_eq_false_iff_not]
  omega

/-- C8.  Classic xref entry lines parse in the fixed-width format (ten
ASCII digits of offset, whitespace, five ASCII digits of generation,
whitespace, flag byte `n` or `f` — and nothing else matches); in both the
`/Prev`-chain builder and the single-table parser an `n`-flagged entry
enters the offset map (the chain builder only when the object number is
absent, the table parser overwriting) while an `f`-flagged or unmatched
line leaves the map untouched. -/
theorem c8_classic_entry_format_and_flags :
    (∀ (line : List Char) (off gen : Nat) (flag : Char),
        matchXrefEntryLine line = some (off, gen, flag) ↔
          ∃ d1 w1 d2 w2 rest,
            line = d1 ++ (w1 ++ (d2 ++ (w2 ++ flag :: rest))) ∧
            d1.length = 10 ∧ d1.all isDigitCh = true ∧ w1 ≠ [] ∧
            w1.all isJsWs = true ∧ d2.length = 5 ∧
            d2.all isDigitCh = true ∧ w2 ≠ [] ∧ w2.all isJsWs = true ∧
            (flag = 'n' ∨ flag = 'f') ∧
            off = digitsToNat d1 ∧ gen = digitsToNat d2) ∧
    (∀ (buffer : List Char) (pos : Nat) (m : Int → Option XEntry)
        (fo : Int) (i off gen : Nat),
        matchXrefEntryLine (readLineAscii buffer pos) =
          some (off, gen, 'n') →
        m (fo + i) = none →
        (chainEntryStep buffer (some fo) i (m, pos)).1 =
          mapSet m (fo + i) ⟨off, gen⟩) ∧
    (∀ (buffer : List Char) (pos : Nat) (m : Int → Option XEntry)
        (fo : Int) (i off gen : Nat),
        matchXrefEntryLine (readLineAscii buffer pos) =
          some (off, gen, 'n') →
        (m (fo + i)).isSome = true →
        (chainEntryStep buffer (some fo) i (m, pos)).1 = m) ∧
    (∀ (buffer : List Char) (pos : Nat) (m : Int → Option XEntry)
        (fo : Option Int) (i off gen : Nat),
        matchXrefEntryLine (readLineAscii buffer pos) =
          some (off, gen, 'f') →
        (chainEntryStep buffer fo i (m, pos)).1 = m) ∧
    (∀ (buffer : List Char) (pos : Nat) (m : Int → Option XEntry)
        (fo : Option Int) (i : Nat),
        matchXrefEntryLine (readLineAscii buffer pos) = none →
        (chainEntryStep buffer fo i (m, pos)).1 = m) ∧
    (∀ (buffer : List Char) (pos : Nat) (m : Int → Option XEntry)
        (fo : Int) (i off gen : Nat),
        matchXrefEntryLine (readLineAscii buffer pos) =
          some (off, gen, 'n') →
        tableEntryStep buffer fo i (m, pos) =
          .ok (mapSet m (fo + i) ⟨off, gen⟩,
            advanceToNextLine buffer pos)) ∧
    (∀ (buffer : List Char) (pos : Nat) (m : Int → Option XEntry)
        (fo : Int) (i off gen : Nat),
        matchXrefEntryLine (readLineAscii buffer pos) =
          some (off, gen, 'f') →
        tableEntryStep buffer fo i (m, pos) =
          .ok (m, advanceToNextLine buffer pos)) ∧
    (∀ (buffer : List Char) (pos : Nat) (m : Int → Option XEntry)
        (fo : Int) (i : Nat),
        matchXrefEntryLine (readLineAscii buffer pos) = none →
        readLineAscii buffer pos ≠ [] →
        tableEntryStep buffer fo i (m, pos) =
          .ok (m, advanceToNextLine buffer pos)) := by
  refine ⟨?_, ?_, ?_, ?_, ?_, ?_, ?_, ?_⟩
  · intro line off gen flag
    constructor
    · intro h
      simp only [matchXrefEntryLine] at h
      set d1 := line.take 10 with hd1
      set r1 := line.drop 10 with hr1
      set w1 := r1.takeWhile isJsWs with hw1
      set r2 := r1.drop w1.length with hr2
      set d2 := r2.take 5 with hd2
      set r3 := r2.drop 5 with hr3
      set w2 := r3.takeWhile isJsWs with hw2
      by_cases h1 : d1.length = 10 ∧ d1.all isDigitCh = true
      case neg => rw [if_neg h1] at h; exact Option.noConfusion h
      rw [if_pos h1] at h
      by_cases h2 : w1.length = 0
      case pos => rw [if_pos h2] at h; exact Option.noConfusion h
      rw [if_neg h2] at h
      by_cases h3 : d2.length = 5 ∧ d2.all isDigitCh = true
      case neg => rw [if_neg h3] at h; exact Option.noConfusion h
      rw [if_pos h3] at h
      by_cases h4 : w2.length = 0
      case pos => rw [if_pos h4] at h; exact Option.noConfusion h
      rw [if_neg h4] at h
      rcases hdrop : r3.drop w2.length with _ | ⟨c, rest⟩
      · rw [hdrop] at h
        exact Option.noConfusion
          (show (none : Option (Nat × Nat × Char)) =
            some (off, gen, flag) from h)
      · rw [hdrop] at h
        have hx : (if c = 'n' ∨ c = 'f' then
            some (digitsToNat d1, digitsToNat d2, c)
          else none) = some (off, gen, flag) := h
        by_cases h5 : c = 'n' ∨ c = 'f'
        case neg => rw [if_neg h5] at hx; exact Option.noConfusion hx
        rw [if_pos h5] at hx
        have h6 := Option.some.inj hx
        simp only [Prod.mk.injEq] at h6
        obtain ⟨ho, hg, hf⟩ := h6
        subst hf
        refine ⟨d1, w1, d2, w2, rest, ?_, h1.1, h1.2, ?_, ?_, h3.1, h3.2,
          ?_, ?_, h5, ho.symm, hg.symm⟩
        · have e_r3 : w2 ++ c :: rest = r3 := by
            rw [← hdrop, hw2]
            exact takeWhile_append_drop_self isJsWs r3
          have e_r2 : d2 ++ r3 = r2 := by
            rw [hd2, hr3]; exact List.take_append_drop 5 r2
          have e_r1 : w1 ++ r2 = r1 := by
            rw [hw1, hr2]
            exact takeWhile_append_drop_self isJsWs r1
          have e_line : d1 ++ r1 = line := by
            rw [hd1, hr1]; exact List.take_append_drop 10 line
          rw [e_r3, e_r2, e_r1, e_line]
        · intro e; exact h2 (by rw [e]; rfl)
        · rw [hw1]; exact List.all_takeWhile
        · intro e; exact h4 (by rw [e]; rfl)
        · rw [hw2]; exact List.all_takeWhile
    · rintro ⟨d1, w1, d2, w2, rest, hline, hd1len, hd1all, hw1ne, hw1all,
        hd2len, hd2all, hw2ne, hw2all, hflag, hoff, hgen⟩
      subst hline hoff hgen
      obtain ⟨c2, d2t, rfl⟩ : ∃ c2 d2t, d2 = c2 :: d2t := by
        cases d2 with
        | nil => simp at hd2len
        | cons a b => exact ⟨a, b, rfl⟩
      have hc2 : isDigitCh c2 = true := by
        simp only [List.all_cons, Bool.and_eq_true] at hd2all
        exact hd2all.1
      have hfw : isJsWs flag = false := by
        rcases hflag with h | h <;> rw [h] <;> decide
      have e1 : (d1 ++ (w1 ++ (c2 :: d2t ++ (w2 ++ flag :: rest)))).take 10 =
          d1 := List.take_left' hd1len
      have e2 : (d1 ++ (w1 ++ (c2 :: d2t ++ (w2 ++ flag :: rest)))).drop 10 =
          w1 ++ (c2 :: d2t ++ (w2 ++ flag :: rest)) := List.drop_left' hd1len
      have e3 : (w1 ++ (c2 :: d2t ++ (w2 ++ flag :: rest))).takeWhile
          isJsWs = w1 := by
        have : (c2 :: d2t) ++ (w2 ++ flag :: rest) =
            c2 :: (d2t ++ (w2 ++ flag :: rest)) := rfl
        rw [this]
        exact takeWhile_run isJsWs w1 c2 _ hw1all (digit_not_ws c2 hc2)
      have e4 : (w1 ++ (c2 :: d2t ++ (w2 ++ flag :: rest))).drop w1.length =
          c2 :: d2t ++ (w2 ++ flag :: rest) := List.drop_left w1 _
      have e5 : (c2 :: d2t ++ (w2 ++ flag :: rest)).take 5 = c2 :: d2t :=
        List.take_left' hd2len
      have e6 : (c2 :: d2t ++ (w2 ++ flag :: rest)).drop 5 =
          w2 ++ flag :: rest := List.drop_left' hd2len
      have e7 : (w2 ++ flag :: rest).takeWhile isJsWs = w2 :=
        takeWhile_run isJsWs w2 flag rest hw2all hfw
      have e8 : (w2 ++ flag :: rest).drop w2.length = flag :: rest :=
        List.drop_left w2 _
      simp only [matchXrefEntryLine, e1, e2, e3, e4, e5, e6, e7, e8]
      rw [if_pos ⟨hd1len, hd1all⟩,
        if_neg (fun e => hw1ne (List.length_eq_zero.mp e)),
        if_pos ⟨hd2len, hd2all⟩,
        if_neg (fun e => hw2ne (List.length_eq_zero.mp e)),
        if_pos hflag]
  · intro buffer pos m fo i off gen h h2
    have hstep : (chainEntryStep buffer (some fo) i (m, pos)).1 =
        match matchXrefEntryLine (readLineAscii buffer pos),
            (some fo : Option Int) with
        | some (off, gen, flag), some f =>
          if flag = 'n' then
            if (m (f + i)).isSome then m else mapSet m (f + i) ⟨off, gen⟩
          else m
        | _, _ => m := rfl
    rw [hstep, h]
    simp [h2]
  · intro buffer pos m fo i off gen h h2
    have hstep : (chainEntryStep buffer (some fo) i (m, pos)).1 =
        match matchXrefEntryLine (readLineAscii buffer pos),
            (some fo : Option Int) with
        | some (off, gen, flag), some f =>
          if flag = 'n' then
            if (m (f + i)).isSome then m else mapSet m (f + i) ⟨off, gen⟩
          else m
        | _, _ => m := rfl
    rw [hstep, h]
    simp [h2]
  · intro buffer pos m fo i off gen h
    have hstep : (chainEntryStep buffer fo i (m, pos)).1 =
        match matchXrefEntryLine (readLineAscii buffer pos), fo with
        | some (off, gen, flag), some f =>
          if flag = 'n' then
            if (m (f + i)).isSome then m else mapSet m (f + i) ⟨off, gen⟩
          else m
        | _, _ => m := rfl
    rw [hstep, h]
    cases fo with
    | none => rfl
    | some f =>
      show (if 'f' = 'n' then
          if (m (f + i)).isSome then m else mapSet m (f + i) ⟨off, gen⟩
        else m) = m
      rw [if_neg (by decide)]
  · intro buffer pos m fo i h
    have hstep : (chainEntryStep buffer fo i (m, pos)).1 =
        match matchXrefEntryLine (readLineAscii buffer pos), fo with
        | some (off, gen, flag), some f =>
          if flag = 'n' then
            if (m (f + i)).isSome then m else mapSet m (f + i) ⟨off, gen⟩
          else m
        | _, _ => m := rfl
    rw [hstep, h]
  · intro buffer pos m fo i off gen h
    have hne : readLineAscii buffer pos ≠ [] := by
      intro e
      rw [e] at h
      exact Option.noConfusion
        (show (none : Option (Nat × Nat × Char)) = some (off, gen, 'n')
          from h)
    have hstep : tableEntryStep buffer fo i (m, pos) =
        if readLineAscii buffer pos = [] then .error ()
        else .ok
          (match matchXrefEntryLine (readLineAscii buffer pos) with
           | some (off, gen, flag) =>
             if flag = 'n' then mapSet m (fo + i) ⟨off, gen⟩ else m
           | none => m, advanceToNextLine buffer pos) := rfl
    rw [hstep, if_neg hne, h]
    simp
  · intro buffer pos m fo i off gen h
    have hne : readLineAscii buffer pos ≠ [] := by
      intro e
      rw [e] at h
      exact Option.noConfusion
        (show (none : Option (Nat × Nat × Char)) = some (off, gen, 'f')
          from h)
    have hstep : tableEntryStep buffer fo i (m, pos) =
        if readLineAscii buffer pos = [] then .error ()
        else .ok
          (match matchXrefEntryLine (readLineAscii buffer pos) with
           | some (off, gen, flag) =>
             if flag = 'n' then mapSet m (fo + i) ⟨off, gen⟩ else m
           | none => m, advanceToNextLine buffer pos) := rfl
    rw [hstep, if_neg hne, h]
    simp
  · intro buffer pos m fo i h hne
    have hstep : tableEntryStep buffer fo i (m, pos) =
        if readLineAscii buffer pos = [] then .error ()
        else .ok
          (match matchXrefEntryLine (readLineAscii buffer pos) with
           | some (off, gen, flag) =>
             if flag = 'n' then mapSet m (fo + i) ⟨off, gen⟩ else m
           | none => m, advanceToNextLine buffer pos) := rfl
    rw [hstep, if_neg hne, h]

/-- C8 witness: the format characterization and both entry steps applied
to a concrete `n`-flagged entry line. -/
theorem c8_classic_entry_format_and_flags_witness :
    matchXrefEntryLine ("0000000017 00000 n ".toList) = some (17, 0, 'n') ∧
    (chainEntryStep demoEntryBuf (some 3) 0 (fun _ => none, 0)).1 =
      mapSet (fun _ => none) (3 + 0) ⟨17, 0⟩ ∧
    tableEntryStep demoEntryBuf 3 0 (fun _ => none, 0) =
      .ok (mapSet (fun _ => none) (3 + 0) ⟨17, 0⟩,
        advanceToNextLine demoEntryBuf 0) :=
  ⟨(c8_classic_entry_format_and_flags.1 _ 17 0 'n').mpr
      ⟨"0000000017".toList, [' '], "00000".toList, [' '], [' '],
        by decide, by decide, by decide, by decide, by decide, by decide,
        by decide, by decide, by decide, by decide, by decide, by decide⟩,
   c8_classic_entry_format_and_flags.2.1 demoEntryBuf 0 (fun _ => none) 3 0
     17 0 (by decide) rfl,
   c8_classic_entry_format_and_flags.2.2.2.2.2.1 demoEntryBuf 0
     (fun _ => none) 3 0 17 0 (by decide)⟩

/-- The scan loop started with `globalMax = 0` returns the local maximum
of the first visited stream occurrence that is successfully examined with
a positive window maximum (0 when there is none). -/
theorem scanObjStmGo_eq_spec (inflate : List Nat → Option (List Nat))
    (buffer : List Char) :
    ∀ (fuel pos : Nat),
      scanObjStmGo inflate buffer fuel pos 0 =
        ((streamTokenPositions buffer fuel pos).filterMap
          (fun si =>
            match streamLocalMax inflate buffer si with
            | some lm => if 0 < lm then some lm else none
            | none => none)).headD 0 := by
  intro fuel
  induction fuel with
  | zero => intro pos; rfl
  | succ fuel ih =>
    intro pos
    cases hidx : indexOfFrom buffer "stream".toList pos with
    | none => simp only [scanObjStmGo, streamTokenPositions, hidx,
        List.filterMap_nil, List.headD_nil]
    | some si =>
      simp only [scanObjStmGo, streamTokenPositions, hidx]
      cases hsl : streamLocalMax inflate buffer si with
      | none =>
        simp only [hsl, List.filterMap_cons]
        exact ih (si + 6)
      | some lm =>
        by_cases hlm : 0 < lm
        · simp [hsl, hlm, List.filterMap_cons]
        · have hlm0 : lm = 0 := by omega
          subst hlm0
          simp only [hsl, List.filterMap_cons]
          simpa using ih (si + 6)

set_option maxRecDepth 8000 in
/-- C10.  The inflated-stream `/Count` scan stops at the first stream
occurrence (in buffer order) whose inflated text yields a positive window
maximum and returns that stream's own maximum; it equals the
specification `firstProductiveStreamMax` on every buffer and oracle, and
on `demoObjStmBuf` it returns 3 from the first productive stream even
though the later stream occurrence at position 66 — which the loop also
visits — would yield 5, so the result is not the maximum over all
inflatable streams. -/
theorem c10_objstm_scan_first_productive :
    (∀ (inflate : List Nat → Option (List Nat)) (buffer : List Char),
        scanMaxPagesCountFromObjectStreams inflate buffer =
          firstProductiveStreamMax inflate buffer) ∧
    scanMaxPagesCountFromObjectStreams demoObjStmInflate demoObjStmBuf = 3 ∧
    streamLocalMax demoObjStmInflate demoObjStmBuf 66 = some 5 ∧
    66 ∈ streamTokenPositions demoObjStmBuf (demoObjStmBuf.length + 1) 0 :=
  ⟨fun inflate buffer => scanObjStmGo_eq_spec inflate buffer _ 0,
   by decide, by decide, by decide⟩

end PdfPages
